import Mathlib

/-!
# Verification development for terraform-provider-azuread

Shallow embedding of

* `internal/services/applications/application_owner_resource.go`
  (`ApplicationOwnerResource.Create`, `Read`, `Delete`),
* the `Exists` functions of
  `internal/services/applications/application_api_access_resource_test.go` and
  `internal/services/directoryroles/directory_role_member_resource_test.go`,
* `internal/helpers/tf/suppress/string.go` (`CaseDifference`),
* `internal/services/domains/domains_data_source.go` (`DomainsDataSource.Read`),
* `internal/services/identitygovernance/privileged_access_group_schedule.go`
  (the `start_date` diff-suppress function and `buildScheduleRequest`),
* `main.go` (`main`),
* `internal/services/directoryroles/migrations/directory_role_assignment_resource.go`
  (`ResourceDirectoryRoleAssignmentInstanceStateUpgradeV0`),
* `internal/helpers/tf/validation/pluginsdk_test.go` (`TestValidateFloatInSlice`).

Every call an operation makes to a collaborator (the named-lock registry, the
Graph client, the resource metadata) is recorded, in program order, in a
trace of `Event`s; the answers of the collaborators are inputs of the model.
-/

set_option linter.dupNamespace false

namespace AzureAD

/-! ## Identifiers of the `stable` package -/

/-- Go `stable.ApplicationId`. -/
structure ApplicationId where
  ApplicationId : String
deriving DecidableEq, Repr

/-- Go `stable.ApplicationIdOwnerId`. -/
structure ApplicationIdOwnerId where
  ApplicationId : String
  DirectoryObjectId : String
deriving DecidableEq, Repr

/-- Go `stable.DirectoryObjectId`. -/
structure DirectoryObjectId where
  DirectoryObjectId : String
deriving DecidableEq, Repr

/-- Go `stable.NewApplicationID`. -/
def NewApplicationID (applicationId : String) : ApplicationId :=
  { ApplicationId := applicationId }

/-- Go `stable.NewApplicationIdOwnerID`. -/
def NewApplicationIdOwnerID (applicationId directoryObjectId : String) : ApplicationIdOwnerId :=
  { ApplicationId := applicationId, DirectoryObjectId := directoryObjectId }

/-- Go `stable.NewDirectoryObjectID`. -/
def NewDirectoryObjectID (directoryObjectId : String) : DirectoryObjectId :=
  { DirectoryObjectId := directoryObjectId }

/-- The string side of the resource-ID library (`hashicorp/go-azure-sdk`, package
`stable`), which is not part of the repository: the parsers and the `ID()`
formatters the owner resource calls.  They are inputs of the model. -/
structure StableIds where
  /-- Go `stable.ParseApplicationID`. -/
  ParseApplicationID : String → Except String ApplicationId
  /-- Go `stable.ParseApplicationIdOwnerID`. -/
  ParseApplicationIdOwnerID : String → Except String ApplicationIdOwnerId
  /-- Go `ApplicationId.ID()`. -/
  applicationID : ApplicationId → String
  /-- Go `ApplicationIdOwnerId.ID()`. -/
  applicationIdOwnerID : ApplicationIdOwnerId → String
  /-- Go `DirectoryObjectId.ID()`. -/
  directoryObjectID : DirectoryObjectId → String

/-! ## The owner resource: model, events and results -/

/-- Go `ApplicationOwnerModel`. -/
structure ApplicationOwnerModel where
  ApplicationId : String
  OwnerObjectId : String
deriving DecidableEq, Repr

/-- Go `stable.DirectoryObject`, as far as the owner lookup exposes it. -/
structure DirectoryObject where
  Id : Option String
deriving DecidableEq, Repr

/-- Go `*http.Response`, reduced to its status code. -/
structure HttpResponse where
  StatusCode : Nat
deriving DecidableEq, Repr

/-- What a Graph client operation hands back besides its model: the HTTP
response (possibly nil) and the Go `error` (nil when `none`). -/
structure ClientResult where
  HttpResponse : Option HttpResponse
  err : Option String
deriving DecidableEq, Repr

/-- A call made to a collaborator, with its arguments. -/
inductive Event where
  | LockByName (resourceName name : String)
  | UnlockByName (resourceName name : String)
  | GetOwner (id : ApplicationIdOwnerId)
  | AddOwnerRef (id : ApplicationId) (odataId : String)
  | RemoveOwnerRef (id : ApplicationIdOwnerId)
  | SetID (id : String)
  | MarkAsGone (id : String)
  | Encode (state : ApplicationOwnerModel)
deriving DecidableEq, Repr

/-- The Go `error` values the owner resource returns, by the statement that
builds them. -/
inductive Failure where
  /-- An error of a collaborator returned unchanged (`return err`). -/
  | unwrapped (inner : String)
  /-- Go `fmt.Errorf("decoding: %+v", err)`. -/
  | decoding (inner : String)
  /-- Go `fmt.Errorf("checking for presence of existing %s: %+v", id, err)`. -/
  | checkingPresence (id : ApplicationIdOwnerId) (inner : String)
  /-- Go `fmt.Errorf("adding %s: %+v", id, err)`. -/
  | adding (id : ApplicationIdOwnerId) (inner : String)
  /-- Go `fmt.Errorf("retrieving %s: %+v", id, err)`. -/
  | retrieving (id : ApplicationIdOwnerId) (inner : String)
  /-- Go `fmt.Errorf("removing %s: %+v", id, err)`. -/
  | removing (id : ApplicationIdOwnerId) (inner : String)
  /-- The requires-import (AlreadyExists) error of `metadata.ResourceRequiresImport`. -/
  | requiresImport (resourceType : String) (id : String)
deriving DecidableEq, Repr

/-- One execution of a resource function: the calls it made, in order, and the
Go `error` it returned (`none` is nil). -/
structure Run where
  trace : List Event
  err : Option Failure
deriving DecidableEq, Repr

/-- The remote directory as one operation sees it: the answer of each Graph
call the owner resource can make. -/
structure Remote where
  /-- Go `client.Client.BaseUri`. -/
  BaseUri : String
  /-- Go `applications.GetOwner` (internal/helpers/applications): an error, or
  the owner reference when it is present and nil when the application or the
  reference is not found. -/
  GetOwner : ApplicationIdOwnerId → Except String (Option DirectoryObject)
  /-- Go `client.AddOwnerRef`. -/
  AddOwnerRef : ApplicationId → String → ClientResult
  /-- Go `client.RemoveOwnerRef`. -/
  RemoveOwnerRef : ApplicationIdOwnerId → ClientResult

/-- Go `sdk.ResourceMetaData`, as far as the owner resource reads it. -/
structure ResourceMetaData where
  /-- The outcome of `metadata.Decode(&model)`. -/
  Decode : Except String ApplicationOwnerModel
  /-- Go `metadata.ResourceData.Id()`. -/
  Id : String
  /-- The error (if any) `metadata.Encode(&state)` returns. -/
  Encode : ApplicationOwnerModel → Option String

/-- Go `response.WasNotFound`: the response is non-nil and its status is 404. -/
def WasNotFound (resp : Option HttpResponse) : Bool :=
  match resp with
  | some r => r.StatusCode == 404
  | none => false

/-- Go `ApplicationOwnerResource.ResourceType`. -/
def ApplicationOwnerResource.ResourceType : String := "azuread_application_owner"

/-- Go `tf.LockByName(resourceName, name); defer tf.UnlockByName(resourceName, name)`
followed by the rest of the function body: the lock call, the calls of the
body, and the deferred unlock call, which runs when the function returns. -/
def lockedByName (resourceName name : String) (body : Run) : Run :=
  { trace := Event.LockByName resourceName name :: body.trace ++ [Event.UnlockByName resourceName name]
    err := body.err }

/-- Modelled from the spec: `sdk.ResourceMetaData.ResourceRequiresImport`
(internal/sdk, absent from src/) builds the `AlreadyExists` error, surfaced to
the caller as a "requires import" condition, for the resource type and the
formatted ID. -/
def ResourceRequiresImport (ids : StableIds) (resourceType : String) (id : ApplicationIdOwnerId) :
    Failure :=
  Failure.requiresImport resourceType (ids.applicationIdOwnerID id)

/-- Modelled from the spec: `sdk.ResourceMetaData.MarkAsGone` (internal/sdk,
absent from src/) signals `Gone`: the caller removes the resource from tracked
state rather than erroring, so the call is recorded and no error comes back. -/
def MarkAsGone (ids : StableIds) (id : ApplicationIdOwnerId) : Run :=
  { trace := [Event.MarkAsGone (ids.applicationIdOwnerID id)], err := none }

/-- Go `ApplicationOwnerResource.Create` (the `Func` of the returned `sdk.ResourceFunc`).
The constant `applicationResourceName` is declared outside src/ and is a parameter. -/
def ApplicationOwnerResource.Create (applicationResourceName : String) (ids : StableIds)
    (remote : Remote) (metadata : ResourceMetaData) : Run :=
  match metadata.Decode with
  | .error e => { trace := [], err := some (Failure.decoding e) }
  | .ok model =>
    match ids.ParseApplicationID model.ApplicationId with
    | .error e => { trace := [], err := some (Failure.unwrapped e) }
    | .ok applicationId =>
      let id := NewApplicationIdOwnerID applicationId.ApplicationId model.OwnerObjectId
      lockedByName applicationResourceName applicationId.ApplicationId <|
        match remote.GetOwner id with
        | .error e =>
          { trace := [Event.GetOwner id], err := some (Failure.checkingPresence id e) }
        | .ok (some _) =>
          { trace := [Event.GetOwner id]
            err := some (ResourceRequiresImport ids ApplicationOwnerResource.ResourceType id) }
        | .ok none =>
          let odataId :=
            remote.BaseUri ++ ids.directoryObjectID (NewDirectoryObjectID id.DirectoryObjectId)
          match (remote.AddOwnerRef applicationId odataId).err with
          | some e =>
            { trace := [Event.GetOwner id, Event.AddOwnerRef applicationId odataId]
              err := some (Failure.adding id e) }
          | none =>
            { trace := [Event.GetOwner id, Event.AddOwnerRef applicationId odataId,
                        Event.SetID (ids.applicationIdOwnerID id)]
              err := none }

/-- Go `ApplicationOwnerResource.Read`. -/
def ApplicationOwnerResource.Read (applicationResourceName : String) (ids : StableIds)
    (remote : Remote) (metadata : ResourceMetaData) : Run :=
  match ids.ParseApplicationIdOwnerID metadata.Id with
  | .error e => { trace := [], err := some (Failure.unwrapped e) }
  | .ok id =>
    let applicationId := NewApplicationID id.ApplicationId
    let ownerId := NewApplicationIdOwnerID applicationId.ApplicationId id.DirectoryObjectId
    lockedByName applicationResourceName id.ApplicationId <|
      match remote.GetOwner ownerId with
      | .error e => { trace := [Event.GetOwner ownerId], err := some (Failure.retrieving id e) }
      | .ok none =>
        { trace := Event.GetOwner ownerId :: (MarkAsGone ids id).trace
          err := (MarkAsGone ids id).err }
      | .ok (some _) =>
        let state : ApplicationOwnerModel :=
          { ApplicationId := ids.applicationID applicationId
            OwnerObjectId := id.DirectoryObjectId }
        { trace := [Event.GetOwner ownerId, Event.Encode state]
          err := (metadata.Encode state).map Failure.unwrapped }

/-- Go `ApplicationOwnerResource.Delete`. -/
def ApplicationOwnerResource.Delete (applicationResourceName : String) (ids : StableIds)
    (remote : Remote) (metadata : ResourceMetaData) : Run :=
  match ids.ParseApplicationIdOwnerID metadata.Id with
  | .error e => { trace := [], err := some (Failure.unwrapped e) }
  | .ok id =>
    let ownerId := NewApplicationIdOwnerID id.ApplicationId id.DirectoryObjectId
    lockedByName applicationResourceName id.ApplicationId <|
      match (remote.RemoveOwnerRef ownerId).err with
      | some e => { trace := [Event.RemoveOwnerRef ownerId], err := some (Failure.removing id e) }
      | none => { trace := [Event.RemoveOwnerRef ownerId], err := none }

/-! ## Case-insensitive comparison: Go `strings.EqualFold` -/

/-- Go `utf8.RuneSelf`: runes below it are single ASCII bytes. -/
def RuneSelf : Nat := 0x80

/-- The runes (code points) of a string.  Strings are valid UTF-8 here, as
Terraform values are. -/
def runes (s : String) : List Nat := s.data.map Char.toNat

/-- The ASCII test of `strings.EqualFold` on an ordered pair `sr < tr`:
`'A' <= sr && sr <= 'Z' && tr == sr+'a'-'A'`. -/
def asciiFoldPair (sr tr : Nat) : Bool :=
  65 ≤ sr && sr ≤ 90 && tr == sr + 97 - 65

/-- The general-case loop of `strings.EqualFold` from the current rune `r` on:
`for r != sr && r < tr { r = unicode.SimpleFold(r) }; r == tr`.
While the Go loop runs it visits runes below `tr`, and it can end only if they
are pairwise distinct, so `tr` iterations bound every run that ends; a run
that would not end is cut off with `false`. -/
def foldSearch (SimpleFold : Nat → Nat) (sr tr : Nat) : Nat → Nat → Bool
  | 0, r => if r != sr && r < tr then false else r == tr
  | fuel + 1, r =>
    if r != sr && r < tr then foldSearch SimpleFold sr tr fuel (SimpleFold r) else r == tr

/-- One iteration of the rune loop of `strings.EqualFold`: do `sr` and `tr`
match?  The table behind `unicode.SimpleFold` is a parameter. -/
def runesFoldEqual (SimpleFold : Nat → Nat) (sr tr : Nat) : Bool :=
  if tr == sr then true
  else
    -- Make sr < tr to simplify what follows.
    let lo := if tr < sr then tr else sr
    let hi := if tr < sr then sr else tr
    if hi < RuneSelf then asciiFoldPair lo hi
    else foldSearch SimpleFold lo hi hi (SimpleFold lo)

/-- The `hasUnicode` part of `strings.EqualFold`: range over the runes of `s`,
taking one rune off `t` for each. -/
def equalFoldUnicode (SimpleFold : Nat → Nat) : List Nat → List Nat → Bool
  | [], t => t.isEmpty
  | _ :: _, [] => false
  | sr :: s, tr :: t =>
    if runesFoldEqual SimpleFold sr tr then equalFoldUnicode SimpleFold s t else false

/-- Go `strings.EqualFold` on rune sequences: the ASCII fast path, which hands
over to `equalFoldUnicode` at the first position where either string has a
non-ASCII rune (a rune is at least `RuneSelf` exactly when the first byte of
its encoding is). -/
def equalFoldRunes (SimpleFold : Nat → Nat) : List Nat → List Nat → Bool
  | sr :: s, tr :: t =>
    if RuneSelf ≤ sr || RuneSelf ≤ tr then equalFoldUnicode SimpleFold (sr :: s) (tr :: t)
    else if tr == sr then equalFoldRunes SimpleFold s t
    else
      let lo := if tr < sr then tr else sr
      let hi := if tr < sr then sr else tr
      if asciiFoldPair lo hi then equalFoldRunes SimpleFold s t else false
  | [], t => t.length == 0
  | _ :: _, [] => false

/-- Go `strings.EqualFold`. -/
def EqualFold (SimpleFold : Nat → Nat) (s t : String) : Bool :=
  equalFoldRunes SimpleFold (runes s) (runes t)

/-- Go `*pluginsdk.ResourceData`, which `CaseDifference` receives and ignores. -/
structure ResourceData where
  Id : String
  attributes : List (String × String)
deriving DecidableEq, Repr

/-- Go `suppress.CaseDifference`. -/
def CaseDifference (SimpleFold : Nat → Nat) (_key old new : String) (_d : Option ResourceData) :
    Bool :=
  EqualFold SimpleFold old new

/-- Two runes are the same letter up to case when iterating simple case
folding leads from the first to the second. -/
def SameFoldOrbit (SimpleFold : Nat → Nat) (a b : Nat) : Prop :=
  ∃ n : Nat, SimpleFold^[n] a = b

/-- The spec's "equal ignoring letter case": the strings have equally many
runes and runes at the same position are the same letter up to case. -/
def EqualIgnoringCase (SimpleFold : Nat → Nat) (s t : String) : Prop :=
  List.Forall₂ (SameFoldOrbit SimpleFold) (runes s) (runes t)

/-- The contract of `unicode.SimpleFold`: among the runes equivalent to `r`
under simple case folding it returns the smallest one above `r` if there is
one and else the smallest of all (`cyclic`, `next`), and the only equivalent
ASCII runes are the upper and lower case of a letter (`ascii`). -/
structure SimpleFoldLaws (SimpleFold : Nat → Nat) : Prop where
  cyclic : ∀ r, ∃ n, 0 < n ∧ SimpleFold^[n] r = r
  next : ∀ r x, SameFoldOrbit SimpleFold r x → r < x → r < SimpleFold r ∧ SimpleFold r ≤ x
  ascii : ∀ r x, r < x → x < RuneSelf →
    (SameFoldOrbit SimpleFold r x ↔ (65 ≤ r ∧ r ≤ 90 ∧ x = r + 32))

/-- Simple case folding restricted to the ASCII letters: a letter goes to its
other case, every other rune to itself. -/
def asciiSimpleFold (r : Nat) : Nat :=
  if 65 ≤ r ∧ r ≤ 90 then r + 32 else if 97 ≤ r ∧ r ≤ 122 then r - 32 else r

/-! ## `ApplicationApiAccessResource.Exists` -/

/-- Go `parse.ApiAccessId`. -/
structure ApiAccessId where
  ApplicationId : String
  ApiClientId : String
deriving DecidableEq, Repr

/-- Go `stable.RequiredResourceAccess`, reduced to `ResourceAppId *string`. -/
structure RequiredResourceAccess where
  ResourceAppId : Option String
deriving DecidableEq, Repr

/-- Go `stable.Application`, reduced to `RequiredResourceAccess`. -/
structure Application where
  RequiredResourceAccess : Option (List RequiredResourceAccess)
deriving DecidableEq, Repr

/-- Go `application.GetApplicationOperationResponse` together with the error
`client.GetApplication` returns. -/
structure GetApplicationResult where
  HttpResponse : Option HttpResponse
  Model : Option Application
  err : Option String
deriving DecidableEq, Repr

/-- The Go `error` values the `Exists` functions return. -/
inductive ExistsFailure where
  /-- An error returned unchanged (`return nil, err`). -/
  | unwrapped (inner : String)
  /-- Go `fmt.Errorf("retrieving %s: %+v", applicationId, err)`. -/
  | retrieving (id : ApplicationId) (inner : String)
  /-- Go `fmt.Errorf("retrieving %s: model was nil", applicationId)`. -/
  | modelWasNil (id : ApplicationId)
  /-- Go `fmt.Errorf("parsing Directory Role Member ID: %v", err)`. -/
  | parsingDirectoryRoleMemberID (inner : String)
  /-- Go `fmt.Errorf("failed to retrieve %s: %v", id, err)`. -/
  | failedToRetrieve (directoryRoleId directoryObjectId : String) (inner : String)
deriving DecidableEq, Repr

/-- What a call of an `Exists` function ends in: the pair `(*bool, error)`, or
a nil-pointer dereference. -/
inductive ExistsResult where
  | value (b : Bool)
  | error (e : ExistsFailure)
  | nilDereference
deriving DecidableEq, Repr

/-- The loop of `ApplicationApiAccessResource.Exists` over
`*app.RequiredResourceAccess`; `*api.ResourceAppId` dereferences a pointer. -/
def existsResourceAppId (SimpleFold : Nat → Nat) (apiClientId : String) :
    List RequiredResourceAccess → ExistsResult
  | [] => .value false
  | api :: rest =>
    match api.ResourceAppId with
    | none => .nilDereference
    | some resourceAppId =>
      if EqualFold SimpleFold resourceAppId apiClientId then .value true
      else existsResourceAppId SimpleFold apiClientId rest

/-- Go `ApplicationApiAccessResource.Exists`.  `parse.ParseApiAccessID`
(internal/services/applications/parse) and `client.GetApplication` are outside
src/ and are parameters. -/
def ApplicationApiAccessResource.Exists (SimpleFold : Nat → Nat)
    (ParseApiAccessID : String → Except String ApiAccessId)
    (GetApplication : ApplicationId → GetApplicationResult) (stateID : String) : ExistsResult :=
  match ParseApiAccessID stateID with
  | .error e => .error (.unwrapped e)
  | .ok id =>
    let applicationId := NewApplicationID id.ApplicationId
    let resp := GetApplication applicationId
    match resp.err with
    | some e =>
      if WasNotFound resp.HttpResponse then .value false
      else .error (.retrieving applicationId e)
    | none =>
      match resp.Model with
      | none => .error (.modelWasNil applicationId)
      | some app =>
        match app.RequiredResourceAccess with
        | none => .value false
        | some apis => existsResourceAppId SimpleFold id.ApiClientId apis

/-! ## `DirectoryRoleMemberResource.Exists` -/

/-- Go `stable.DirectoryRoleIdMemberId`. -/
structure DirectoryRoleIdMemberId where
  DirectoryRoleId : String
  DirectoryObjectId : String
deriving DecidableEq, Repr

/-- Go `stable.DirectoryRoleId`. -/
structure DirectoryRoleId where
  DirectoryRoleId : String
deriving DecidableEq, Repr

/-- Go `stable.NewDirectoryRoleID`. -/
def NewDirectoryRoleID (directoryRoleId : String) : DirectoryRoleId :=
  { DirectoryRoleId := directoryRoleId }

/-- Go `member.ListMembersOperationResponse` together with the error
`client.ListMembers` returns. -/
structure ListMembersResult where
  HttpResponse : Option HttpResponse
  Model : Option (List DirectoryObject)
  err : Option String
deriving DecidableEq, Repr

/-- Go `pointer.From` on a `*string`: the pointed-to string, or `""` for nil. -/
def pointerFrom (p : Option String) : String :=
  match p with
  | some s => s
  | none => ""

/-- The loop of `DirectoryRoleMemberResource.Exists` over `*resp.Model`:
`pointer.From(member.DirectoryObject().Id) == id.DirectoryObjectId`. -/
def existsMember (directoryObjectId : String) : List DirectoryObject → Bool
  | [] => false
  | m :: rest =>
    if pointerFrom m.Id == directoryObjectId then true else existsMember directoryObjectId rest

/-- Go `DirectoryRoleMemberResource.Exists`.  The parser and
`client.ListMembers` (which receives the role ID and the `Filter` option) are
outside src/ and are parameters. -/
def DirectoryRoleMemberResource.Exists
    (ParseDirectoryRoleIdMemberID : String → Except String DirectoryRoleIdMemberId)
    (ListMembers : DirectoryRoleId → String → ListMembersResult) (stateID : String) :
    ExistsResult :=
  match ParseDirectoryRoleIdMemberID stateID with
  | .error e => .error (.parsingDirectoryRoleMemberID e)
  | .ok id =>
    let filter := "id eq \x27" ++ id.DirectoryObjectId ++ "\x27"
    let resp := ListMembers (NewDirectoryRoleID id.DirectoryRoleId) filter
    match resp.err with
    | some e =>
      if WasNotFound resp.HttpResponse then .value false
      else .error (.failedToRetrieve id.DirectoryRoleId id.DirectoryObjectId e)
    | none =>
      match resp.Model with
      | some members =>
        if existsMember id.DirectoryObjectId members then .value true else .value false
      | none => .value false

/-! ## A concrete resource-ID library and directory for worked examples -/

/-- The `/`-separated segments of a string, left to right (`cur` holds the
characters of the segment being read, newest first). -/
def segmentsFrom : List Char → List Char → List String
  | [], cur => [String.mk cur.reverse]
  | c :: cs, cur =>
    if c = '/' then String.mk cur.reverse :: segmentsFrom cs [] else segmentsFrom cs (c :: cur)

/-- The string whose `/`-separated segments are the given ones. -/
def joinSegments : List String → List Char
  | [] => []
  | [s] => s.data
  | s :: t :: rest => s.data ++ '/' :: joinSegments (t :: rest)

/-- Modelled from the spec: the resource-ID library is not part of src/; this
instance gives relationship IDs the composite form the spec describes, parent
and child joined under fixed path segments
(`/applications/{applicationId}/owners/{directoryObjectId}`), with parsers
that accept exactly the formatted strings with non-empty constituents. -/
def graphIds : StableIds where
  ParseApplicationID s :=
    match segmentsFrom s.data [] with
    | ["", "applications", a] =>
      if a = "" then .error "applicationId was empty" else .ok { ApplicationId := a }
    | _ => .error ("parsing " ++ s)
  ParseApplicationIdOwnerID s :=
    match segmentsFrom s.data [] with
    | ["", "applications", a, "owners", o] =>
      if a = "" ∨ o = "" then .error "empty segment"
      else .ok { ApplicationId := a, DirectoryObjectId := o }
    | _ => .error ("parsing " ++ s)
  applicationID id := "/applications/" ++ id.ApplicationId
  applicationIdOwnerID id := "/applications/" ++ id.ApplicationId ++ "/owners/" ++ id.DirectoryObjectId
  directoryObjectID id := "/directoryObjects/" ++ id.DirectoryObjectId

/-- A directory in which the owner reference is present, every add succeeds
and every remove succeeds. -/
def remotePresent : Remote where
  BaseUri := "https://graph.microsoft.com/v1.0"
  GetOwner id := .ok (some { Id := some id.DirectoryObjectId })
  AddOwnerRef _ _ := { HttpResponse := some { StatusCode := 204 }, err := none }
  RemoveOwnerRef _ := { HttpResponse := some { StatusCode := 204 }, err := none }

/-- A directory in which the owner reference is absent: the lookup finds
nothing, an add succeeds, and a remove is answered 404 Not Found, which the
client reports as an error because 404 is not among the expected statuses. -/
def remoteAbsent : Remote where
  BaseUri := "https://graph.microsoft.com/v1.0"
  GetOwner _ := .ok none
  AddOwnerRef _ _ := { HttpResponse := some { StatusCode := 204 }, err := none }
  RemoveOwnerRef _ :=
    { HttpResponse := some { StatusCode := 404 }, err := some "unexpected status 404 (404 Not Found)" }

/-- A directory whose every call fails with a server error. -/
def remoteFailing : Remote where
  BaseUri := "https://graph.microsoft.com/v1.0"
  GetOwner _ := .error "unexpected status 500"
  AddOwnerRef _ _ := { HttpResponse := some { StatusCode := 500 }, err := some "unexpected status 500" }
  RemoveOwnerRef _ := { HttpResponse := some { StatusCode := 500 }, err := some "unexpected status 500" }

/-- Metadata of a resource configured with the given application ID and owner,
tracked under the given resource ID, whose `Encode` succeeds. -/
def metadataOf (applicationId ownerObjectId id : String) : ResourceMetaData where
  Decode := .ok { ApplicationId := applicationId, OwnerObjectId := ownerObjectId }
  Id := id
  Encode _ := none

/-- Metadata whose configuration does not decode and whose ID is malformed. -/
def metadataBroken : ResourceMetaData where
  Decode := .error "unsupported field type"
  Id := "not-an-id"
  Encode _ := none

/-- An API access ID parser for worked examples: IDs of the form
`/applications/{applicationId}/apiAccess/{apiClientId}`. -/
def parseApiAccessExample (s : String) : Except String ApiAccessId :=
  match segmentsFrom s.data [] with
  | ["", "applications", a, "apiAccess", c] => .ok { ApplicationId := a, ApiClientId := c }
  | _ => .error ("parsing " ++ s)

/-- A directory with one application, `a1`, which requires access to the
Microsoft Graph API (in upper case) and to one other API; the application `a2`
has no required-resource-access list, `a3` comes back without a model, `a4`
fails with a server error, and every other lookup is answered 404. -/
def getApplicationExample (id : ApplicationId) : GetApplicationResult :=
  if id.ApplicationId = "a1" then
    { HttpResponse := some { StatusCode := 200 }
      Model := some
        { RequiredResourceAccess := some
            ([{ ResourceAppId := some "11111111-2222-3333-4444-555555555555" },
              { ResourceAppId := some "00000003-0000-0000-C000-000000000000" }]) }
      err := none }
  else if id.ApplicationId = "a2" then
    { HttpResponse := some { StatusCode := 200 }
      Model := some { RequiredResourceAccess := none }
      err := none }
  else if id.ApplicationId = "a3" then
    { HttpResponse := some { StatusCode := 200 }, Model := none, err := none }
  else if id.ApplicationId = "a4" then
    { HttpResponse := some { StatusCode := 500 }, Model := none
      err := some "unexpected status 500" }
  else
    { HttpResponse := some { StatusCode := 404 }, Model := none
      err := some "unexpected status 404" }

/-- A directory role member ID parser for worked examples: IDs of the form
`/directoryRoles/{directoryRoleId}/members/{directoryObjectId}`. -/
def parseDirectoryRoleMemberExample (s : String) : Except String DirectoryRoleIdMemberId :=
  match segmentsFrom s.data [] with
  | ["", "directoryRoles", r, "members", o] => .ok { DirectoryRoleId := r, DirectoryObjectId := o }
  | _ => .error ("parsing " ++ s)

/-- A directory whose every role lists one member, with an upper-case object
ID. -/
def listMembersExample (_id : DirectoryRoleId) (_filter : String) : ListMembersResult :=
  { HttpResponse := some { StatusCode := 200 }
    Model := some [{ Id := some "9A5D68DD-52B0-4CC2-BD40-ABCF44AC3A30" }]
    err := none }

/-- Is the event a call to the named-lock registry? -/
def Event.isLocking : Event → Bool
  | .LockByName _ _ => true
  | .UnlockByName _ _ => true
  | _ => false

/-- Is the event a call to the Graph client? -/
def Event.isRemote : Event → Bool
  | .GetOwner _ => true
  | .AddOwnerRef _ _ => true
  | .RemoveOwnerRef _ => true
  | _ => false

/-- The run acquires the lock `(resourceName, name)` first, releases the same
lock last, and makes no other call to the lock registry in between. -/
def Run.LockedOnce (r : Run) (resourceName name : String) : Prop :=
  ∃ body : List Event,
    r.trace = Event.LockByName resourceName name :: body ++ [Event.UnlockByName resourceName name] ∧
    ∀ e ∈ body, e.isLocking = false

/-- The resource ID a run leaves behind: the argument of its last `SetID`. -/
def Run.resourceId (r : Run) : Option String :=
  r.trace.foldl (fun acc e => match e with | .SetID s => some s | _ => acc) none

/-! ## The `azuread_domains` data source -/

/-- Go `Domain` of `domains_data_source.go`: one entry of the `domains` attribute. -/
structure Domain where
  AdminManaged : Bool
  AuthenticationType : String
  Default : Bool
  DomainName : String
  Initial : Bool
  Root : Bool
  SupportedServices : List String
  Verified : Bool
deriving DecidableEq, Repr

/-- Go `DomainsDataSourceModel`. -/
structure DomainsDataSourceModel where
  AdminManaged : Bool
  Domains : List Domain
  IncludeUnverified : Bool
  OnlyDefault : Bool
  OnlyInitial : Bool
  OnlyRoot : Bool
  SupportsServices : List String
deriving DecidableEq, Repr

/-- Go `stable.Domain`, reduced to the fields `Read` looks at; each is a pointer. -/
structure StableDomain where
  Id : Option String
  AuthenticationType : Option String
  IsAdminManaged : Option Bool
  IsDefault : Option Bool
  IsInitial : Option Bool
  IsRoot : Option Bool
  IsVerified : Option Bool
  SupportedServices : Option (List String)
deriving DecidableEq, Repr

/-- Go `p != nil && !*p` on a `*bool`. -/
def setAndFalse (p : Option Bool) : Bool :=
  match p with
  | some b => !b
  | none => false

/-- Go `p != nil && *p` on a `*bool`. -/
def setAndTrue (p : Option Bool) : Bool :=
  match p with
  | some b => b
  | none => false

/-- The inner loop of the service filter: is `serviceNeeded` equal to one of
the supported services? -/
def serviceIsSupported (serviceNeeded : String) : List String → Bool
  | [] => false
  | serviceSupported :: rest =>
    if serviceNeeded == serviceSupported then true else serviceIsSupported serviceNeeded rest

/-- The outer loop of the service filter: the final value of `supported`, the
number of needed services found among the supported ones. -/
def countSupported (supportedServices : List String) : List String → Nat
  | [] => 0
  | serviceNeeded :: rest =>
    (if serviceIsSupported serviceNeeded supportedServices then 1 else 0) +
      countSupported supportedServices rest

/-- Does the loop body of `DomainsDataSource.Read` reach a `continue` for the
domain `v`?  The six filters, in source order. -/
def DomainsDataSource.skips (state : DomainsDataSourceModel) (v : StableDomain) : Bool :=
  if state.AdminManaged && setAndFalse v.IsAdminManaged then true
  else if state.OnlyDefault && setAndFalse v.IsDefault then true
  else if state.OnlyInitial && setAndFalse v.IsInitial then true
  else if state.OnlyRoot && setAndFalse v.IsRoot then true
  else if !state.IncludeUnverified && setAndFalse v.IsVerified then true
  else
    match v.SupportedServices with
    | some supportedServices =>
      if state.SupportsServices.length > 0 then
        decide (countSupported supportedServices state.SupportsServices <
          state.SupportsServices.length)
      else false
    | none => false

/-- The entry `Read` appends to `state.Domains` for a domain whose `Id` is `id`. -/
def DomainsDataSource.entry (v : StableDomain) (id : String) : Domain :=
  { AdminManaged := setAndTrue v.IsAdminManaged
    AuthenticationType := match v.AuthenticationType with | some a => a | none => ""
    Default := setAndTrue v.IsDefault
    DomainName := id
    Initial := setAndTrue v.IsInitial
    Root := setAndTrue v.IsRoot
    SupportedServices := match v.SupportedServices with | some l => l | none => []
    Verified := setAndTrue v.IsVerified }

/-- One iteration of the loop of `DomainsDataSource.Read` over `*result`, on
the pair `(domainNames, state.Domains)`; `state` supplies the filter arguments,
which the loop never changes. -/
def DomainsDataSource.visit (state : DomainsDataSourceModel)
    (acc : List String × List Domain) (v : StableDomain) : List String × List Domain :=
  if DomainsDataSource.skips state v then acc
  else
    match v.Id with
    | some id => (acc.1 ++ [id], acc.2 ++ [DomainsDataSource.entry v id])
    | none => acc

/-- The whole loop of `DomainsDataSource.Read`. -/
def DomainsDataSource.collect (state : DomainsDataSourceModel) (result : List StableDomain)
    (acc : List String × List Domain) : List String × List Domain :=
  result.foldl (DomainsDataSource.visit state) acc

/-- Go `domain.ListDomainsOperationResponse` together with the error
`client.ListDomains` returns. -/
structure ListDomainsResult where
  Model : Option (List StableDomain)
  err : Option String
deriving DecidableEq, Repr

/-- The Go `error` values `DomainsDataSource.Read` returns. -/
inductive DomainsFailure where
  /-- Go `fmt.Errorf("decoding: %+v", err)`. -/
  | decoding (inner : String)
  /-- Go `fmt.Errorf("listing domains: %+v", err)`. -/
  | listingDomains (inner : String)
  /-- Go `fmt.Errorf("retrieving domains: result was nil")`. -/
  | resultWasNil
  /-- Go `fmt.Errorf("no domains found for the provided filters")`. -/
  | noDomainsFound
  /-- The error of `metadata.Encode(&state)`, returned unchanged. -/
  | unwrapped (inner : String)
deriving DecidableEq, Repr

/-- The message of a `DomainsFailure`. -/
def DomainsFailure.Error : DomainsFailure → String
  | .decoding inner => "decoding: " ++ inner
  | .listingDomains inner => "listing domains: " ++ inner
  | .resultWasNil => "retrieving domains: result was nil"
  | .noDomainsFound => "no domains found for the provided filters"
  | .unwrapped inner => inner

/-- One execution of `DomainsDataSource.Read`: the argument of `metadata.SetID`
if it was called, the state handed to `metadata.Encode` if it was called, and
the Go `error` returned. -/
structure DomainsRun where
  id : Option String
  encoded : Option DomainsDataSourceModel
  err : Option DomainsFailure
deriving DecidableEq, Repr

/-- Go `DomainsDataSource.Read`.  Inputs: the tenant ID of the client, the
outcome of `metadata.Decode`, the answer of `client.ListDomains`, the error
(if any) of `metadata.Encode`, and `digest`, the URL-safe base64 of the SHA-1
of a string (`crypto/sha1`, `encoding/base64`; writing to the hash never
fails, so the `unable to compute hash` branch is not reachable). -/
def DomainsDataSource.Read (tenantId : String) (digest : String → String)
    (decode : Except String DomainsDataSourceModel) (listDomains : ListDomainsResult)
    (encode : DomainsDataSourceModel → Option String) : DomainsRun :=
  match decode with
  | .error e => { id := none, encoded := none, err := some (.decoding e) }
  | .ok state =>
    match listDomains.err with
    | some e => { id := none, encoded := none, err := some (.listingDomains e) }
    | none =>
      match listDomains.Model with
      | none => { id := none, encoded := none, err := some .resultWasNil }
      | some result =>
        let collected := DomainsDataSource.collect state result ([], state.Domains)
        let domainNames := collected.1
        let state := { state with Domains := collected.2 }
        if state.Domains.length == 0 then
          { id := none, encoded := none, err := some .noDomainsFound }
        else
          { id := some ("domains#" ++ tenantId ++ "#" ++ digest (String.intercalate "/" domainNames))
            encoded := some state
            err := (encode state).map DomainsFailure.unwrapped }

/-! ## Privileged access group schedules -/

/-- Go `time.Minute`, in nanoseconds.  A `time.Time` is modelled by its
instant, the number of nanoseconds since the Unix epoch; `Before` is `<` and
`Add` is `+` (RFC 3339 times lie in the years 0000 to 9999, far from the ends
of the range of `time.Time`). -/
def Minute : Int := 60 * 1000000000

/-- The zero `time.Time` (January 1, year 1, 00:00:00 UTC), which `time.Parse`
returns together with an error and to which `var t time.Time` is initialised. -/
def zeroTime : Int := -62135596800 * 1000000000

/-- The `DiffSuppressFunc` of the `start_date` argument in
`privilegedAccessGroupScheduleArguments`.  `parse` is
`time.Parse(time.RFC3339, _)` and `now` the value of `time.Now()`. -/
def startDateDiffSuppressFunc (parse : String → Except String Int) (now : Int)
    (_k old new : String) (_d : Option ResourceData) : Bool :=
  -- Suppress diffs if the start date is in the past
  match parse old with
  | .ok oldTime => decide (oldTime < now)
  | .error _ =>
    let oldTime := zeroTime
    -- Suppress diffs if the new date is within 5 minutes of the old date
    match parse new with
    | .ok newTime => decide (newTime < oldTime + 5 * Minute)
    | .error _ => false

/-- Go `PrivilegedAccessGroupScheduleModel`. -/
structure PrivilegedAccessGroupScheduleModel where
  AssignmentType : String
  Duration : String
  ExpirationDate : String
  GroupId : String
  Justification : String
  PermanentAssignment : Bool
  PrincipalId : String
  StartDate : String
  Status : String
  TicketNumber : String
  TicketSystem : String
deriving DecidableEq, Repr

/-- Go `stable.ExpirationPatternType`, the three values the builder uses. -/
inductive ExpirationPatternType where
  | AfterDateTime
  | AfterDuration
  | NoExpiration
deriving DecidableEq, Repr

/-- Go `stable.ExpirationPattern`; `ExpirationType` is its field `Type`. -/
structure ExpirationPattern where
  Duration : Option String
  EndDateTime : Option String
  ExpirationType : Option ExpirationPatternType
deriving DecidableEq, Repr

/-- Go `stable.RequestSchedule`, reduced to the fields the builder sets. -/
structure RequestSchedule where
  Expiration : ExpirationPattern
  StartDateTime : Option String
deriving DecidableEq, Repr

/-- Go `nullable.NoZero` on a string: no value for the zero value `""`. -/
def NoZero (v : String) : Option String :=
  if v = "" then none else some v

/-- The Go `error` values `buildScheduleRequest` returns. -/
inductive ScheduleFailure where
  /-- Go `fmt.Errorf("parsing %s: %+v", input, err)`. -/
  | parsing (input inner : String)
  | expirationBeforeStart
  | expirationNotInFuture
  | nothingSet
deriving DecidableEq, Repr

/-- The message of a `ScheduleFailure`. -/
def ScheduleFailure.Error : ScheduleFailure → String
  | .parsing input inner => "parsing " ++ input ++ ": " ++ inner
  | .expirationBeforeStart => "`expiration_date` must be at least 5 minutes after `start_date`"
  | .expirationNotInFuture => "`expiration_date` must be at least 5 minutes in the future"
  | .nothingSet =>
    "either `expiration_date` or `duration` must be set, or `permanent_assignment` must be true"

/-- Go `buildScheduleRequest`.  `parse` is `time.Parse(time.RFC3339, _)`, `now`
the value of `time.Now()` and `HasChange` is `metadata.ResourceData.HasChange`. -/
def buildScheduleRequest (parse : String → Except String Int) (now : Int)
    (HasChange : String → Bool) (model : PrivilegedAccessGroupScheduleModel) :
    Except ScheduleFailure RequestSchedule :=
  let schedule : RequestSchedule :=
    { Expiration := { Duration := none, EndDateTime := none, ExpirationType := none }
      StartDateTime := NoZero model.StartDate }
  match (if model.StartDate != "" then parse model.StartDate else .ok zeroTime) with
  | .error e => .error (.parsing model.StartDate e)
  | .ok startDate =>
    if model.ExpirationDate != "" then
      match parse model.ExpirationDate with
      | .error e => .error (.parsing model.ExpirationDate e)
      | .ok expiryDate =>
        if model.StartDate != "" && decide (expiryDate < startDate + 5 * Minute) then
          .error .expirationBeforeStart
        else if HasChange "expiry_date" && decide (expiryDate < now + 5 * Minute) then
          .error .expirationNotInFuture
        else
          .ok { schedule with
            Expiration := { schedule.Expiration with
              EndDateTime := some model.ExpirationDate
              ExpirationType := some .AfterDateTime } }
    else if model.Duration != "" then
      .ok { schedule with
        Expiration := { schedule.Expiration with
          Duration := some model.Duration
          ExpirationType := some .AfterDuration } }
    else if model.PermanentAssignment then
      .ok { schedule with
        Expiration := { schedule.Expiration with ExpirationType := some .NoExpiration } }
    else .error .nothingSet

/-! ## The provider executable -/

/-- Go `plugin.ServeOpts`, reduced to the fields `main` sets by value. -/
structure ServeOpts where
  Debug : Bool
  ProviderAddr : String
deriving DecidableEq, Repr

/-- Go `main` of `main.go`: the options handed to `plugin.Serve`.  `debug` is
the value of the variable `debug` after `flag.Parse()`: the value given to the
`-debug` flag, and `false` when the flag is not given. -/
def main (_debug : Bool) : ServeOpts :=
  { Debug := false
    ProviderAddr := "registry.terraform.io/GPKbdZZb/forked-azuread" }

/-! ## `validation.FloatInSlice` -/

/-- A Go `float64`, by its IEEE 754 binary64 bit pattern. -/
structure Float64 where
  bits : Nat
deriving DecidableEq, Repr

/-- Is the float a NaN: exponent all ones and a non-zero fraction. -/
def Float64.isNaN (f : Float64) : Bool :=
  (f.bits / 2 ^ 52) % 2 ^ 11 == 2047 && f.bits % 2 ^ 52 != 0

/-- Is the float `+0` or `-0`. -/
def Float64.isZero (f : Float64) : Bool :=
  f.bits % 2 ^ 63 == 0

/-- Go `==` on `float64`: a NaN equals nothing, the two zeros are equal, and
otherwise equal floats have equal bit patterns. -/
def Float64.eq (a b : Float64) : Bool :=
  !a.isNaN && !b.isNaN && (a.bits == b.bits || (a.isZero && b.isZero))

/-- A Go `interface{}` value as a schema validator receives it. -/
inductive GoValue where
  | float64 (f : Float64)
  | int (n : Int)
  | string (s : String)
  | bool (b : Bool)
deriving DecidableEq, Repr

/-- The errors `FloatInSlice` reports. -/
inductive FloatInSliceError where
  /-- The value is not a `float64`. -/
  | expectedFloat (i : GoValue)
  /-- The value is none of the valid floats. -/
  | expectedOneOf (k : String) (valid : List Float64) (v : Float64)
deriving DecidableEq, Repr

/-- Is `v` equal (`==`) to one of the valid floats, searched left to right? -/
def floatInList (v : Float64) : List Float64 → Bool
  | [] => false
  | validFloat :: rest => if v.eq validFloat then true else floatInList v rest

/-- Modelled from the spec: `validation.FloatInSlice`
(internal/helpers/tf/validation/pluginsdk.go) is absent from src/ and the spec
does not describe it; the model follows its name and its test under src/,
`TestValidateFloatInSlice`: the validator asserts that the value is a
`float64`, reports an error if it is not, and otherwise reports an error
unless the value equals one of the floats of `valid`.  The result is the pair
of warnings and errors. -/
def FloatInSlice (valid : List Float64) (i : GoValue) (k : String) :
    List String × List FloatInSliceError :=
  match i with
  | .float64 v =>
    if floatInList v valid then ([], []) else ([], [.expectedOneOf k valid v])
  | other => ([], [.expectedFloat other])

/-- One case of the table of `TestValidateFloatInSlice`. -/
structure FloatInSliceCase where
  name : String
  Value : GoValue
  valid : List Float64
  ExpectValidationErrors : Bool
deriving DecidableEq, Repr

/-- The float `1.0`. -/
def float1 : Float64 := { bits := 0x3FF0000000000000 }

/-- The float `1.5`. -/
def float1_5 : Float64 := { bits := 0x3FF8000000000000 }

/-- The float `2.0`. -/
def float2 : Float64 := { bits := 0x4000000000000000 }

/-- The float `-1.0`. -/
def floatMinus1 : Float64 := { bits := 0xBFF0000000000000 }

/-- The float `0.0`. -/
def float0 : Float64 := { bits := 0 }

/-- The table `cases` of `TestValidateFloatInSlice`. -/
def floatInSliceCases : List FloatInSliceCase :=
  [ { name := "accept valid value", Value := .float64 float1_5
      valid := [float1, float1_5, float2], ExpectValidationErrors := false },
    { name := "accept valid negative value ", Value := .float64 floatMinus1
      valid := [floatMinus1, float2], ExpectValidationErrors := false },
    { name := "accept zero", Value := .float64 float0
      valid := [float0, float2], ExpectValidationErrors := false },
    { name := "reject out of range value", Value := .float64 floatMinus1
      valid := [float0, float2], ExpectValidationErrors := true },
    { name := "reject incorrectly typed value", Value := .int 1
      valid := [float0, float1, float2], ExpectValidationErrors := true } ]

/-- The body of the loop of `TestValidateFloatInSlice`: does the case pass,
that is, does it reach neither `t.Errorf`? -/
def floatInSliceCasePasses (tc : FloatInSliceCase) : Bool :=
  let errors := (FloatInSlice tc.valid tc.Value tc.name).2
  if errors.length > 0 && !tc.ExpectValidationErrors then false
  else if errors.length == 0 && tc.ExpectValidationErrors then false
  else true

/-- The entry the loop of `DomainsDataSource.Read` appends for the domain `v`,
if it appends one: `v` reaches no `continue` and has an `Id`. -/
def DomainsDataSource.kept (state : DomainsDataSourceModel) (v : StableDomain) : Option Domain :=
  if DomainsDataSource.skips state v then none
  else
    match v.Id with
    | some id => some (DomainsDataSource.entry v id)
    | none => none

/-! ## Example inputs for the data source and the schedule builder -/

/-- The value of a decimal digit. -/
def digitValue (c : Char) : Option Nat :=
  if 48 ≤ c.toNat ∧ c.toNat ≤ 57 then some (c.toNat - 48) else none

/-- The value of two decimal digits. -/
def twoDigits (a b : Char) : Option Nat :=
  match digitValue a, digitValue b with
  | some x, some y => some (10 * x + y)
  | _, _ => none

/-- The number of days from 1970-01-01 to the given day of the proleptic
Gregorian calendar. -/
def daysFromCivil (year month day : Int) : Int :=
  let y := if month ≤ 2 then year - 1 else year
  let era := (if 0 ≤ y then y else y - 399) / 400
  let yoe := y - era * 400
  let doy := (153 * (if 2 < month then month - 3 else month + 9) + 2) / 5 + day - 1
  let doe := yoe * 365 + yoe / 4 - yoe / 100 + doy
  era * 146097 + doe - 719468

/-- A parser for worked examples, standing in for `time.Parse(time.RFC3339, _)`
on UTC times of the form `2018-01-01T01:02:03Z`: the instant in nanoseconds
since the Unix epoch, or an error for any other string. -/
def parseRFC3339Example (s : String) : Except String Int :=
  match s.data with
  | [y1, y2, y3, y4, '-', m1, m2, '-', d1, d2, 'T', h1, h2, ':', n1, n2, ':', s1, s2, 'Z'] =>
    match twoDigits y1 y2, twoDigits y3 y4, twoDigits m1 m2, twoDigits d1 d2, twoDigits h1 h2,
      twoDigits n1 n2, twoDigits s1 s2 with
    | some yh, some yl, some month, some day, some hour, some minute, some second =>
      if 1 ≤ month ∧ month ≤ 12 ∧ 1 ≤ day ∧ day ≤ 31 ∧ hour ≤ 23 ∧ minute ≤ 59 ∧ second ≤ 59 then
        .ok ((((daysFromCivil (100 * yh + yl) month day * 24 + hour) * 60 + minute) * 60 +
          second) * 1000000000)
      else .error ("parsing time " ++ s ++ ": out of range")
    | _, _, _, _, _, _, _ => .error ("parsing time " ++ s)
  | _ => .error ("parsing time " ++ s)

/-- The instant 2025-08-14T00:00:00Z, used as the current time in examples. -/
def exampleNow : Int := 1755129600 * 1000000000

/-- A schedule model with the given start date, expiration date, duration and
permanence, and fixed other fields. -/
def scheduleModelOf (startDate expirationDate duration : String) (permanent : Bool) :
    PrivilegedAccessGroupScheduleModel :=
  { AssignmentType := "member", Duration := duration, ExpirationDate := expirationDate
    GroupId := "11111111-2222-3333-4444-555555555555", Justification := ""
    PermanentAssignment := permanent, PrincipalId := "9a5d68dd-52b0-4cc2-bd40-abcf44ac3a30"
    StartDate := startDate, Status := "", TicketNumber := "", TicketSystem := "" }

/-- A resource whose `expiration_date` attribute, and no other, has changed;
the key `expiry_date` does not name an attribute of the schema. -/
def expirationDateChanged (key : String) : Bool :=
  key == "expiration_date"

/-- A decoded configuration of the data source with the given `only_initial`
and `supports_services` and nothing else set; `domains` is computed and so
empty when decoded. -/
def domainsConfigOf (onlyInitial : Bool) (supportsServices : List String) :
    DomainsDataSourceModel :=
  { AdminManaged := false, Domains := [], IncludeUnverified := false, OnlyDefault := false
    OnlyInitial := onlyInitial, OnlyRoot := false, SupportsServices := supportsServices }

/-- The initial domain of a tenant, with every property present. -/
def domainInitial : StableDomain :=
  { Id := some "contoso.onmicrosoft.com", AuthenticationType := some "Managed"
    IsAdminManaged := some true, IsDefault := some false, IsInitial := some true
    IsRoot := some true, IsVerified := some true
    SupportedServices := some ["Email", "OfficeCommunicationsOnline"] }

/-- A custom domain that is not the initial one. -/
def domainCustom : StableDomain :=
  { Id := some "contoso.com", AuthenticationType := some "Managed"
    IsAdminManaged := some true, IsDefault := some true, IsInitial := some false
    IsRoot := some true, IsVerified := some true
    SupportedServices := some ["Email", "Intune"] }

/-- A domain for which the response carries only the name: `isInitial`,
`supportedServices` and the other properties are absent. -/
def domainBare : StableDomain :=
  { Id := some "fabrikam.com", AuthenticationType := none
    IsAdminManaged := none, IsDefault := none, IsInitial := none
    IsRoot := none, IsVerified := none, SupportedServices := none }

/-- A stand-in for the URL-safe base64 of the SHA-1 of a string. -/
def exampleDigest (s : String) : String := "sha1(" ++ s ++ ")"

/-! ## The state migration of directory role assignments -/

/-- Go `stable.RoleManagementDirectoryRoleAssignmentId`. -/
structure RoleManagementDirectoryRoleAssignmentId where
  UnifiedRoleAssignmentId : String
deriving DecidableEq, Repr

/-- Go `stable.NewRoleManagementDirectoryRoleAssignmentID`. -/
def NewRoleManagementDirectoryRoleAssignmentID (unifiedRoleAssignmentId : String) :
    RoleManagementDirectoryRoleAssignmentId :=
  { UnifiedRoleAssignmentId := unifiedRoleAssignmentId }

/-- A Go `map[string]interface{}`: the value stored under each key, if any. -/
abbrev RawState := String → Option GoValue

/-- Go `m[key] = value` on a `map[string]interface{}`. -/
def RawState.set (m : RawState) (key : String) (value : GoValue) : RawState :=
  fun k => if k = key then some value else m k

/-- What a call of the state upgrader ends in: the pair `(map, error)` it
returns, or the run-time panic of a failed type assertion. -/
inductive UpgradeResult where
  | returned (state : RawState) (err : Option String)
  | typeAssertionPanic

/-- Go `ResourceDirectoryRoleAssignmentInstanceStateUpgradeV0`.  `ID` is the
method `RoleManagementDirectoryRoleAssignmentId.ID()` of the resource-ID
library, which is not part of the repository.  The assertion
`rawState["id"].(string)` panics unless the key holds a string; the map is
updated in place and returned. -/
def ResourceDirectoryRoleAssignmentInstanceStateUpgradeV0
    (ID : RoleManagementDirectoryRoleAssignmentId → String) (rawState : RawState) :
    UpgradeResult :=
  match rawState "id" with
  | some (.string oldId) =>
    let newId := NewRoleManagementDirectoryRoleAssignmentID oldId
    .returned (rawState.set "id" (.string (ID newId))) none
  | _ => .typeAssertionPanic

/-- The v1 form of a directory role assignment ID, for worked examples:
`/roleManagement/directory/roleAssignments/{unifiedRoleAssignmentId}`. -/
def roleAssignmentIDExample (id : RoleManagementDirectoryRoleAssignmentId) : String :=
  "/roleManagement/directory/roleAssignments/" ++ id.UnifiedRoleAssignmentId

/-- A v0 raw state of a directory role assignment: the ID is the bare
assignment ID. -/
def rawStateV0Example : RawState := fun k =>
  if k = "id" then some (.string "lAPpYvVpN0KRkAEhdxReEMEx") else
  if k = "role_id" then some (.string "62e90394-69f5-4237-9190-012177145e10") else
  if k = "principal_object_id" then some (.string "9a5d68dd-52b0-4cc2-bd40-abcf44ac3a30") else
  none

/-! ## The retry predicate of `ApplicationOwnerResource.Create` -/

/-- Go `*odata.OData`, which the retry predicate receives and ignores. -/
structure OData where
  Context : Option String
  Error : Option String
deriving DecidableEq, Repr

/-- Go `owner.AddOwnerRefOperationOptions`, reduced to `RetryFunc`: the answer
`(retry, error)` to a response. -/
structure AddOwnerRefOperationOptions where
  RetryFunc : Option HttpResponse → Option OData → Bool × Option String

/-- The `options` value `ApplicationOwnerResource.Create` builds and passes to
`client.AddOwnerRef`. -/
def ApplicationOwnerResource.CreateOptions : AddOwnerRefOperationOptions :=
  { RetryFunc := fun resp _ =>
      if WasNotFound resp then (true, none)
      else (false, none) }

/-! ## Theorems: the application owner resource -/

theorem lockedByName_lockedOnce (resourceName name : String) (body : Run)
    (h : ∀ e ∈ body.trace, e.isLocking = false) :
    (lockedByName resourceName name body).LockedOnce resourceName name :=
  ⟨body.trace, rfl, h⟩

theorem lockedOnce_count (r : Run) (resourceName name : String)
    (h : r.LockedOnce resourceName name) :
    (r.trace.filter Event.isLocking) =
      [Event.LockByName resourceName name, Event.UnlockByName resourceName name] := by
  obtain ⟨body, hb, hno⟩ := h
  have hf : body.filter Event.isLocking = [] := by
    rw [List.filter_eq_nil_iff]
    intro e he
    simp [hno e he]
  rw [hb]
  simp [List.filter_cons, List.filter_append, Event.isLocking, hf]

/-- C1. When the owner lookup of `Create` finds the owner reference already
present, `Create` fails with the requires-import error for the resource type
and the formatted relationship ID, its trace contains no `AddOwnerRef` call
and no `SetID` call, and it leaves no resource ID behind. -/
theorem Create_requiresImport (applicationResourceName : String) (ids : StableIds)
    (remote : Remote) (metadata : ResourceMetaData) (model : ApplicationOwnerModel)
    (applicationId : ApplicationId) (o : DirectoryObject)
    (hDecode : metadata.Decode = .ok model)
    (hParse : ids.ParseApplicationID model.ApplicationId = .ok applicationId)
    (hFound : remote.GetOwner
      (NewApplicationIdOwnerID applicationId.ApplicationId model.OwnerObjectId) = .ok (some o)) :
    (ApplicationOwnerResource.Create applicationResourceName ids remote metadata).err =
        some (Failure.requiresImport "azuread_application_owner"
          (ids.applicationIdOwnerID
            (NewApplicationIdOwnerID applicationId.ApplicationId model.OwnerObjectId))) ∧
      (∀ a s, Event.AddOwnerRef a s ∉
        (ApplicationOwnerResource.Create applicationResourceName ids remote metadata).trace) ∧
      (∀ s, Event.SetID s ∉
        (ApplicationOwnerResource.Create applicationResourceName ids remote metadata).trace) ∧
      (ApplicationOwnerResource.Create applicationResourceName ids remote metadata).resourceId =
        none := by
  simp [ApplicationOwnerResource.Create, hDecode, hParse, hFound, lockedByName,
    ResourceRequiresImport, ApplicationOwnerResource.ResourceType, Run.resourceId]

theorem Create_requiresImport_witness :
    (ApplicationOwnerResource.Create "azuread_application" graphIds remotePresent
        (metadataOf "/applications/a1" "o1" "")).err =
        some (Failure.requiresImport "azuread_application_owner"
          (graphIds.applicationIdOwnerID (NewApplicationIdOwnerID "a1" "o1"))) ∧
      (∀ a s, Event.AddOwnerRef a s ∉
        (ApplicationOwnerResource.Create "azuread_application" graphIds remotePresent
          (metadataOf "/applications/a1" "o1" "")).trace) ∧
      (∀ s, Event.SetID s ∉
        (ApplicationOwnerResource.Create "azuread_application" graphIds remotePresent
          (metadataOf "/applications/a1" "o1" "")).trace) ∧
      (ApplicationOwnerResource.Create "azuread_application" graphIds remotePresent
        (metadataOf "/applications/a1" "o1" "")).resourceId = none :=
  Create_requiresImport "azuread_application" graphIds remotePresent
    (metadataOf "/applications/a1" "o1" "") { ApplicationId := "/applications/a1", OwnerObjectId := "o1" }
    { ApplicationId := "a1" } { Id := some "o1" } rfl rfl rfl

/-- C2 (counterexample). The reference is absent, the remove-owner call is
answered 404 Not Found, and `Delete` returns an error instead of succeeding. -/
theorem Delete_notFound_is_an_error :
    WasNotFound (remoteAbsent.RemoveOwnerRef (NewApplicationIdOwnerID "a1" "o1")).HttpResponse =
        true ∧
      (ApplicationOwnerResource.Delete "azuread_application" graphIds remoteAbsent
        (metadataOf "/applications/a1" "o1" "/applications/a1/owners/o1")).err =
        some (Failure.removing { ApplicationId := "a1", DirectoryObjectId := "o1" }
          "unexpected status 404 (404 Not Found)") := by
  constructor
  · rfl
  · rfl

/-- C2 (amended). For a well-formed resource ID, `Delete` returns no error
exactly when the remove-owner call returns no error, and every error of that
call, whatever the status of its HTTP response (404 Not Found included), comes
back wrapped as `removing <id>: <error>`. -/
theorem Delete_err_iff_remove_err (applicationResourceName : String) (ids : StableIds)
    (remote : Remote) (metadata : ResourceMetaData) (id : ApplicationIdOwnerId)
    (hParse : ids.ParseApplicationIdOwnerID metadata.Id = .ok id) :
    ((ApplicationOwnerResource.Delete applicationResourceName ids remote metadata).err = none ↔
        (remote.RemoveOwnerRef
          (NewApplicationIdOwnerID id.ApplicationId id.DirectoryObjectId)).err = none) ∧
      ∀ e, (remote.RemoveOwnerRef
          (NewApplicationIdOwnerID id.ApplicationId id.DirectoryObjectId)).err = some e →
        (ApplicationOwnerResource.Delete applicationResourceName ids remote metadata).err =
          some (Failure.removing id e) := by
  unfold ApplicationOwnerResource.Delete
  rw [hParse]
  cases h : (remote.RemoveOwnerRef
      (NewApplicationIdOwnerID id.ApplicationId id.DirectoryObjectId)).err <;>
    simp [lockedByName, h]

theorem Delete_err_iff_remove_err_witness :
    ((ApplicationOwnerResource.Delete "azuread_application" graphIds remotePresent
          (metadataOf "/applications/a1" "o1" "/applications/a1/owners/o1")).err = none ↔
        (remotePresent.RemoveOwnerRef (NewApplicationIdOwnerID "a1" "o1")).err = none) ∧
      ∀ e, (remotePresent.RemoveOwnerRef (NewApplicationIdOwnerID "a1" "o1")).err = some e →
        (ApplicationOwnerResource.Delete "azuread_application" graphIds remotePresent
          (metadataOf "/applications/a1" "o1" "/applications/a1/owners/o1")).err =
          some (Failure.removing { ApplicationId := "a1", DirectoryObjectId := "o1" } e) :=
  Delete_err_iff_remove_err "azuread_application" graphIds remotePresent
    (metadataOf "/applications/a1" "o1" "/applications/a1/owners/o1")
    { ApplicationId := "a1", DirectoryObjectId := "o1" } rfl

/-- C3. For a well-formed resource ID, when the owner lookup of `Read` answers
that nothing is there (the application is gone or the reference is absent),
`Read` marks the resource as gone, returns no error, and its trace contains no
`Encode` call. -/
theorem Read_gone (applicationResourceName : String) (ids : StableIds)
    (remote : Remote) (metadata : ResourceMetaData) (id : ApplicationIdOwnerId)
    (hParse : ids.ParseApplicationIdOwnerID metadata.Id = .ok id)
    (hAbsent : remote.GetOwner
      (NewApplicationIdOwnerID id.ApplicationId id.DirectoryObjectId) = .ok none) :
    Event.MarkAsGone (ids.applicationIdOwnerID id) ∈
        (ApplicationOwnerResource.Read applicationResourceName ids remote metadata).trace ∧
      (ApplicationOwnerResource.Read applicationResourceName ids remote metadata).err = none ∧
      ∀ state, Event.Encode state ∉
        (ApplicationOwnerResource.Read applicationResourceName ids remote metadata).trace := by
  simp [ApplicationOwnerResource.Read, hParse, NewApplicationID, hAbsent, lockedByName,
    MarkAsGone]

theorem Read_gone_witness :
    Event.MarkAsGone "/applications/a1/owners/o1" ∈
        (ApplicationOwnerResource.Read "azuread_application" graphIds remoteAbsent
          (metadataOf "/applications/a1" "o1" "/applications/a1/owners/o1")).trace ∧
      (ApplicationOwnerResource.Read "azuread_application" graphIds remoteAbsent
          (metadataOf "/applications/a1" "o1" "/applications/a1/owners/o1")).err = none ∧
      ∀ state, Event.Encode state ∉
        (ApplicationOwnerResource.Read "azuread_application" graphIds remoteAbsent
          (metadataOf "/applications/a1" "o1" "/applications/a1/owners/o1")).trace :=
  Read_gone "azuread_application" graphIds remoteAbsent
    (metadataOf "/applications/a1" "o1" "/applications/a1/owners/o1")
    { ApplicationId := "a1", DirectoryObjectId := "o1" } rfl rfl

/-- C4. Let `a` be a valid application resource ID (it parses, and formatting
the parsed ID gives `a` back) and `o` an owner object ID for which the
relationship ID round-trips through format and parse.  If `Create` on `(a, o)`
succeeds, it leaves the formatted relationship ID behind as resource ID, and a
`Read` of a resource tracked under that ID, with the owner reference present
remotely, parses the ID back to the same relationship, whose formatted form is
again that ID, and encodes exactly the state `application_id = a`,
`owner_object_id = o`, returning what `Encode` returns. -/
theorem Create_then_Read_roundtrip (applicationResourceName : String) (ids : StableIds)
    (creating reading : Remote) (mdCreate mdRead : ResourceMetaData) (a o : String)
    (applicationId : ApplicationId) (owner : DirectoryObject)
    (hDecode : mdCreate.Decode = .ok { ApplicationId := a, OwnerObjectId := o })
    (hValid : ids.ParseApplicationID a = .ok applicationId)
    (hCanonical : ids.applicationID applicationId = a)
    (hRound : ids.ParseApplicationIdOwnerID
        (ids.applicationIdOwnerID (NewApplicationIdOwnerID applicationId.ApplicationId o)) =
      .ok (NewApplicationIdOwnerID applicationId.ApplicationId o))
    (hCreate : (ApplicationOwnerResource.Create applicationResourceName ids creating
      mdCreate).err = none)
    (hTracked : some mdRead.Id = (ApplicationOwnerResource.Create applicationResourceName ids
      creating mdCreate).resourceId)
    (hPresent : reading.GetOwner (NewApplicationIdOwnerID applicationId.ApplicationId o) =
      .ok (some owner)) :
    mdRead.Id = ids.applicationIdOwnerID (NewApplicationIdOwnerID applicationId.ApplicationId o) ∧
      ids.ParseApplicationIdOwnerID mdRead.Id =
        .ok (NewApplicationIdOwnerID applicationId.ApplicationId o) ∧
      Event.Encode { ApplicationId := a, OwnerObjectId := o } ∈
        (ApplicationOwnerResource.Read applicationResourceName ids reading mdRead).trace ∧
      (∀ state, Event.Encode state ∈
          (ApplicationOwnerResource.Read applicationResourceName ids reading mdRead).trace →
        state = { ApplicationId := a, OwnerObjectId := o }) ∧
      (ApplicationOwnerResource.Read applicationResourceName ids reading mdRead).err =
        (mdRead.Encode { ApplicationId := a, OwnerObjectId := o }).map Failure.unwrapped := by
  have hId : mdRead.Id =
      ids.applicationIdOwnerID (NewApplicationIdOwnerID applicationId.ApplicationId o) := by
    revert hTracked hCreate
    unfold ApplicationOwnerResource.Create
    rw [hDecode]
    simp only [hValid]
    cases creating.GetOwner (NewApplicationIdOwnerID applicationId.ApplicationId o) with
    | error e => simp [lockedByName]
    | ok found =>
      cases found with
      | some _ => simp [lockedByName]
      | none =>
        cases (creating.AddOwnerRef applicationId (creating.BaseUri ++ ids.directoryObjectID
            (NewDirectoryObjectID
              (NewApplicationIdOwnerID applicationId.ApplicationId o).DirectoryObjectId))).err with
        | some e => simp [lockedByName]
        | none => simp [lockedByName, Run.resourceId]
  have hApp : NewApplicationID applicationId.ApplicationId = applicationId := rfl
  refine ⟨hId, by rw [hId, hRound], ?_⟩
  unfold ApplicationOwnerResource.Read
  rw [hId, hRound]
  simp [NewApplicationIdOwnerID, NewApplicationID] at hPresent ⊢
  simp [hPresent, lockedByName, hApp, hCanonical]

theorem Create_then_Read_roundtrip_witness :
    "/applications/a1/owners/o1" =
        graphIds.applicationIdOwnerID (NewApplicationIdOwnerID "a1" "o1") ∧
      graphIds.ParseApplicationIdOwnerID "/applications/a1/owners/o1" =
        .ok (NewApplicationIdOwnerID "a1" "o1") ∧
      Event.Encode { ApplicationId := "/applications/a1", OwnerObjectId := "o1" } ∈
        (ApplicationOwnerResource.Read "azuread_application" graphIds remotePresent
          (metadataOf "/applications/a1" "o1" "/applications/a1/owners/o1")).trace ∧
      (∀ state, Event.Encode state ∈
          (ApplicationOwnerResource.Read "azuread_application" graphIds remotePresent
            (metadataOf "/applications/a1" "o1" "/applications/a1/owners/o1")).trace →
        state = { ApplicationId := "/applications/a1", OwnerObjectId := "o1" }) ∧
      (ApplicationOwnerResource.Read "azuread_application" graphIds remotePresent
          (metadataOf "/applications/a1" "o1" "/applications/a1/owners/o1")).err =
        ((metadataOf "/applications/a1" "o1" "/applications/a1/owners/o1").Encode
          { ApplicationId := "/applications/a1", OwnerObjectId := "o1" }).map Failure.unwrapped :=
  Create_then_Read_roundtrip "azuread_application" graphIds remoteAbsent remotePresent
    (metadataOf "/applications/a1" "o1" "")
    (metadataOf "/applications/a1" "o1" "/applications/a1/owners/o1")
    "/applications/a1" "o1" { ApplicationId := "a1" } { Id := some "o1" }
    rfl rfl rfl rfl rfl rfl rfl

/-! ### The example resource-ID library round-trips -/

theorem segmentsFrom_append (xs : List Char) (h : '/' ∉ xs) :
    ∀ cur rest, segmentsFrom (xs ++ rest) cur = segmentsFrom rest (xs.reverse ++ cur) := by
  induction xs with
  | nil => intro cur rest; rfl
  | cons c xs ih =>
    intro cur rest
    have hc : c ≠ '/' := fun hc => h (by rw [hc]; exact List.mem_cons_self _ _)
    have hxs : '/' ∉ xs := fun hx => h (List.mem_cons_of_mem _ hx)
    have hstep : segmentsFrom (c :: xs ++ rest) cur = segmentsFrom (xs ++ rest) (c :: cur) := by
      show segmentsFrom (c :: (xs ++ rest)) cur = _
      rw [segmentsFrom, if_neg hc]
    rw [hstep, ih hxs]
    simp

theorem segmentsFrom_segment (xs : List Char) (h : '/' ∉ xs) (rest : List Char) :
    segmentsFrom (xs ++ '/' :: rest) [] = String.mk xs :: segmentsFrom rest [] := by
  rw [segmentsFrom_append xs h]
  simp [segmentsFrom]

theorem segmentsFrom_last (xs : List Char) (h : '/' ∉ xs) :
    segmentsFrom xs [] = [String.mk xs] := by
  have := segmentsFrom_append xs h [] []
  simp only [List.append_nil] at this
  rw [this]
  simp [segmentsFrom]

/-- The example resource-ID library parses every formatted owner relationship
ID back to its constituents, provided they are non-empty and free of `/`. -/
theorem graphIds_parse_format_owner (a o : String) (ha : '/' ∉ a.data) (ho : '/' ∉ o.data)
    (ha0 : a ≠ "") (ho0 : o ≠ "") :
    graphIds.ParseApplicationIdOwnerID
        (graphIds.applicationIdOwnerID (NewApplicationIdOwnerID a o)) =
      .ok (NewApplicationIdOwnerID a o) := by
  have hseg : segmentsFrom (graphIds.applicationIdOwnerID (NewApplicationIdOwnerID a o)).data [] =
      ["", "applications", a, "owners", o] := by
    have hdata : (graphIds.applicationIdOwnerID (NewApplicationIdOwnerID a o)).data =
        [] ++ '/' :: ("applications".data ++ '/' :: (a.data ++ '/' :: ("owners".data ++
          '/' :: o.data))) := by
      simp [graphIds, NewApplicationIdOwnerID, String.data_append]
    rw [hdata, segmentsFrom_segment [] (by simp), segmentsFrom_segment _ (by decide),
      segmentsFrom_segment _ ha, segmentsFrom_segment _ (by decide), segmentsFrom_last _ ho]
  simp only [graphIds]
  simp only [graphIds] at hseg
  rw [hseg]
  simp [ha0, ho0, NewApplicationIdOwnerID]

theorem segmentsFrom_ne_nil : ∀ cs cur, segmentsFrom cs cur ≠ [] := by
  intro cs
  induction cs with
  | nil => intro cur; simp [segmentsFrom]
  | cons c cs ih =>
    intro cur
    unfold segmentsFrom
    split
    · simp
    · exact ih _

theorem joinSegments_segmentsFrom :
    ∀ cs cur, joinSegments (segmentsFrom cs cur) = cur.reverse ++ cs := by
  intro cs
  induction cs with
  | nil => intro cur; simp [segmentsFrom, joinSegments]
  | cons c cs ih =>
    intro cur
    unfold segmentsFrom
    split
    · rename_i hc
      have hrest := ih []
      cases hs : segmentsFrom cs [] with
      | nil => exact absurd hs (segmentsFrom_ne_nil cs [])
      | cons y ys =>
        rw [hs] at hrest
        simp only [joinSegments, hrest, hc]
        simp
    · rw [ih]
      simp

/-- Parsing with the example library loses nothing: an application ID that
parses is the formatted form of what it parses to. -/
theorem graphIds_format_parse_application (s : String) (applicationId : ApplicationId)
    (h : graphIds.ParseApplicationID s = .ok applicationId) :
    graphIds.applicationID applicationId = s := by
  simp only [graphIds] at h ⊢
  split at h
  · rename_i a hseg
    split at h
    · cases h
    · cases h
      have hj := joinSegments_segmentsFrom s.data []
      rw [hseg] at hj
      simp [joinSegments] at hj
      apply String.ext
      rw [String.data_append, ← hj]
      rfl
  · cases h

/-- C5. When decoding the model fails, `Create` returns the decoding error;
when parsing the application ID fails, `Create` returns the parse error; when
parsing the resource ID fails, `Read` and `Delete` return the parse error.  In
each case the trace is empty: no lock was acquired and no Graph call made. -/
theorem validation_failure_makes_no_call (applicationResourceName : String) (ids : StableIds)
    (remote : Remote) (metadata : ResourceMetaData) :
    (∀ e, metadata.Decode = .error e →
        ApplicationOwnerResource.Create applicationResourceName ids remote metadata =
          { trace := [], err := some (Failure.decoding e) }) ∧
      (∀ model e, metadata.Decode = .ok model →
        ids.ParseApplicationID model.ApplicationId = .error e →
        ApplicationOwnerResource.Create applicationResourceName ids remote metadata =
          { trace := [], err := some (Failure.unwrapped e) }) ∧
      (∀ e, ids.ParseApplicationIdOwnerID metadata.Id = .error e →
        ApplicationOwnerResource.Read applicationResourceName ids remote metadata =
            { trace := [], err := some (Failure.unwrapped e) } ∧
          ApplicationOwnerResource.Delete applicationResourceName ids remote metadata =
            { trace := [], err := some (Failure.unwrapped e) }) := by
  refine ⟨?_, ?_, ?_⟩
  · intro e h
    simp [ApplicationOwnerResource.Create, h]
  · intro model e h hp
    simp [ApplicationOwnerResource.Create, h, hp]
  · intro e h
    simp [ApplicationOwnerResource.Read, ApplicationOwnerResource.Delete, h]

theorem validation_failure_makes_no_call_witness :
    ApplicationOwnerResource.Create "azuread_application" graphIds remotePresent metadataBroken =
        { trace := [], err := some (Failure.decoding "unsupported field type") } ∧
      ApplicationOwnerResource.Create "azuread_application" graphIds remotePresent
          (metadataOf "a1" "o1" "") =
        { trace := [], err := some (Failure.unwrapped "parsing a1") } ∧
      ApplicationOwnerResource.Read "azuread_application" graphIds remotePresent metadataBroken =
        { trace := [], err := some (Failure.unwrapped "parsing not-an-id") } ∧
      ApplicationOwnerResource.Delete "azuread_application" graphIds remotePresent
          metadataBroken =
        { trace := [], err := some (Failure.unwrapped "parsing not-an-id") } :=
  ⟨(validation_failure_makes_no_call "azuread_application" graphIds remotePresent
      metadataBroken).1 "unsupported field type" rfl,
    (validation_failure_makes_no_call "azuread_application" graphIds remotePresent
      (metadataOf "a1" "o1" "")).2.1 { ApplicationId := "a1", OwnerObjectId := "o1" }
      "parsing a1" rfl rfl,
    (validation_failure_makes_no_call "azuread_application" graphIds remotePresent
      metadataBroken).2.2 "parsing not-an-id" rfl⟩

theorem Create_lockedOnce (applicationResourceName : String) (ids : StableIds)
    (remote : Remote) (metadata : ResourceMetaData) (model : ApplicationOwnerModel)
    (applicationId : ApplicationId) (hDecode : metadata.Decode = .ok model)
    (hParse : ids.ParseApplicationID model.ApplicationId = .ok applicationId) :
    (ApplicationOwnerResource.Create applicationResourceName ids remote metadata).LockedOnce
      applicationResourceName applicationId.ApplicationId := by
  unfold ApplicationOwnerResource.Create
  rw [hDecode]
  simp only [hParse]
  apply lockedByName_lockedOnce
  cases remote.GetOwner
      (NewApplicationIdOwnerID applicationId.ApplicationId model.OwnerObjectId) with
  | error e => simp [Event.isLocking]
  | ok found =>
    cases found with
    | some _ => simp [Event.isLocking]
    | none =>
      cases (remote.AddOwnerRef applicationId (remote.BaseUri ++ ids.directoryObjectID
          (NewDirectoryObjectID (NewApplicationIdOwnerID applicationId.ApplicationId
            model.OwnerObjectId).DirectoryObjectId))).err with
      | some e => simp [Event.isLocking]
      | none => simp [Event.isLocking]

theorem Read_lockedOnce (applicationResourceName : String) (ids : StableIds)
    (remote : Remote) (metadata : ResourceMetaData) (id : ApplicationIdOwnerId)
    (hParse : ids.ParseApplicationIdOwnerID metadata.Id = .ok id) :
    (ApplicationOwnerResource.Read applicationResourceName ids remote metadata).LockedOnce
      applicationResourceName id.ApplicationId := by
  unfold ApplicationOwnerResource.Read
  rw [hParse]
  apply lockedByName_lockedOnce
  cases remote.GetOwner (NewApplicationIdOwnerID
      (NewApplicationID id.ApplicationId).ApplicationId id.DirectoryObjectId) with
  | error e => simp [Event.isLocking]
  | ok found =>
    cases found with
    | some _ => simp [Event.isLocking]
    | none => simp [Event.isLocking, MarkAsGone]

theorem Delete_lockedOnce (applicationResourceName : String) (ids : StableIds)
    (remote : Remote) (metadata : ResourceMetaData) (id : ApplicationIdOwnerId)
    (hParse : ids.ParseApplicationIdOwnerID metadata.Id = .ok id) :
    (ApplicationOwnerResource.Delete applicationResourceName ids remote metadata).LockedOnce
      applicationResourceName id.ApplicationId := by
  unfold ApplicationOwnerResource.Delete
  rw [hParse]
  apply lockedByName_lockedOnce
  cases (remote.RemoveOwnerRef
      (NewApplicationIdOwnerID id.ApplicationId id.DirectoryObjectId)).err with
  | some e => simp [Event.isLocking]
  | none => simp [Event.isLocking]

/-- C6. Every execution of `Create`, `Read` and `Delete` either makes no call
at all (it failed validation) or acquires the lock
`(applicationResourceName, parent application ID)` first, releases exactly
that lock last and touches the lock registry nowhere in between, so that its
lock calls are exactly one `LockByName` followed by one `UnlockByName` with
the same two arguments.  The lock calls are determined by the parent
application ID: two executions whose application ID (`Create`) or whose parsed
parent ID (`Read`, `Delete`) agree make the same lock calls, whatever the
owner IDs and the remote answers. -/
theorem lock_released_once_on_every_path (applicationResourceName : String) (ids : StableIds)
    (remote : Remote) (metadata : ResourceMetaData) :
    ((ApplicationOwnerResource.Create applicationResourceName ids remote metadata).trace = [] ∨
        ∃ model applicationId, metadata.Decode = .ok model ∧
          ids.ParseApplicationID model.ApplicationId = .ok applicationId ∧
          (ApplicationOwnerResource.Create applicationResourceName ids remote metadata).LockedOnce
            applicationResourceName applicationId.ApplicationId ∧
          (ApplicationOwnerResource.Create applicationResourceName ids remote
              metadata).trace.filter Event.isLocking =
            [Event.LockByName applicationResourceName applicationId.ApplicationId,
              Event.UnlockByName applicationResourceName applicationId.ApplicationId]) ∧
      ((ApplicationOwnerResource.Read applicationResourceName ids remote metadata).trace = [] ∨
        ∃ id, ids.ParseApplicationIdOwnerID metadata.Id = .ok id ∧
          (ApplicationOwnerResource.Read applicationResourceName ids remote metadata).LockedOnce
            applicationResourceName id.ApplicationId ∧
          (ApplicationOwnerResource.Read applicationResourceName ids remote
              metadata).trace.filter Event.isLocking =
            [Event.LockByName applicationResourceName id.ApplicationId,
              Event.UnlockByName applicationResourceName id.ApplicationId]) ∧
      ((ApplicationOwnerResource.Delete applicationResourceName ids remote metadata).trace = [] ∨
        ∃ id, ids.ParseApplicationIdOwnerID metadata.Id = .ok id ∧
          (ApplicationOwnerResource.Delete applicationResourceName ids remote metadata).LockedOnce
            applicationResourceName id.ApplicationId ∧
          (ApplicationOwnerResource.Delete applicationResourceName ids remote
              metadata).trace.filter Event.isLocking =
            [Event.LockByName applicationResourceName id.ApplicationId,
              Event.UnlockByName applicationResourceName id.ApplicationId]) ∧
      (∀ (remote2 : Remote) (metadata2 : ResourceMetaData) (model model2 : ApplicationOwnerModel),
        metadata.Decode = .ok model → metadata2.Decode = .ok model2 →
        model.ApplicationId = model2.ApplicationId →
        (ApplicationOwnerResource.Create applicationResourceName ids remote
            metadata).trace.filter Event.isLocking =
          (ApplicationOwnerResource.Create applicationResourceName ids remote2
            metadata2).trace.filter Event.isLocking) ∧
      (∀ (remote2 : Remote) (metadata2 : ResourceMetaData) (id id2 : ApplicationIdOwnerId),
        ids.ParseApplicationIdOwnerID metadata.Id = .ok id →
        ids.ParseApplicationIdOwnerID metadata2.Id = .ok id2 →
        id.ApplicationId = id2.ApplicationId →
        (ApplicationOwnerResource.Read applicationResourceName ids remote
              metadata).trace.filter Event.isLocking =
            (ApplicationOwnerResource.Read applicationResourceName ids remote2
              metadata2).trace.filter Event.isLocking ∧
          (ApplicationOwnerResource.Delete applicationResourceName ids remote
              metadata).trace.filter Event.isLocking =
            (ApplicationOwnerResource.Delete applicationResourceName ids remote2
              metadata2).trace.filter Event.isLocking) := by
  refine ⟨?_, ?_, ?_, ?_, ?_⟩
  · cases hD : metadata.Decode with
    | error e => left; simp [ApplicationOwnerResource.Create, hD]
    | ok model =>
      cases hP : ids.ParseApplicationID model.ApplicationId with
      | error e => left; simp [ApplicationOwnerResource.Create, hD, hP]
      | ok applicationId =>
        right
        have h := Create_lockedOnce applicationResourceName ids remote metadata model
          applicationId hD hP
        exact ⟨model, applicationId, rfl, hP, h, lockedOnce_count _ _ _ h⟩
  · cases hP : ids.ParseApplicationIdOwnerID metadata.Id with
    | error e => left; simp [ApplicationOwnerResource.Read, hP]
    | ok id =>
      right
      have h := Read_lockedOnce applicationResourceName ids remote metadata id hP
      exact ⟨id, rfl, h, lockedOnce_count _ _ _ h⟩
  · cases hP : ids.ParseApplicationIdOwnerID metadata.Id with
    | error e => left; simp [ApplicationOwnerResource.Delete, hP]
    | ok id =>
      right
      have h := Delete_lockedOnce applicationResourceName ids remote metadata id hP
      exact ⟨id, rfl, h, lockedOnce_count _ _ _ h⟩
  · intro remote2 metadata2 model model2 hD hD2 hEq
    cases hP : ids.ParseApplicationID model.ApplicationId with
    | error e =>
      have hP2 : ids.ParseApplicationID model2.ApplicationId = .error e := by rw [← hEq]; exact hP
      simp [ApplicationOwnerResource.Create, hD, hD2, hP, hP2]
    | ok applicationId =>
      have hP2 : ids.ParseApplicationID model2.ApplicationId = .ok applicationId := by
        rw [← hEq]; exact hP
      rw [lockedOnce_count _ _ _ (Create_lockedOnce applicationResourceName ids remote metadata
          model applicationId hD hP),
        lockedOnce_count _ _ _ (Create_lockedOnce applicationResourceName ids remote2 metadata2
          model2 applicationId hD2 hP2)]
  · intro remote2 metadata2 id id2 hP hP2 hEq
    rw [lockedOnce_count _ _ _ (Read_lockedOnce applicationResourceName ids remote metadata id hP),
      lockedOnce_count _ _ _ (Read_lockedOnce applicationResourceName ids remote2 metadata2 id2
        hP2),
      lockedOnce_count _ _ _ (Delete_lockedOnce applicationResourceName ids remote metadata id
        hP),
      lockedOnce_count _ _ _ (Delete_lockedOnce applicationResourceName ids remote2 metadata2 id2
        hP2), hEq]
    exact ⟨rfl, rfl⟩

theorem lock_released_once_on_every_path_witness :
    ((ApplicationOwnerResource.Create "azuread_application" graphIds remoteFailing
          (metadataOf "/applications/a1" "o1" "")).trace.filter Event.isLocking =
        (ApplicationOwnerResource.Create "azuread_application" graphIds remoteAbsent
          (metadataOf "/applications/a1" "o2" "")).trace.filter Event.isLocking) ∧
      ((ApplicationOwnerResource.Read "azuread_application" graphIds remoteFailing
            (metadataOf "" "" "/applications/a1/owners/o1")).trace.filter Event.isLocking =
          (ApplicationOwnerResource.Read "azuread_application" graphIds remoteAbsent
            (metadataOf "" "" "/applications/a1/owners/o2")).trace.filter Event.isLocking ∧
        (ApplicationOwnerResource.Delete "azuread_application" graphIds remoteFailing
            (metadataOf "" "" "/applications/a1/owners/o1")).trace.filter Event.isLocking =
          (ApplicationOwnerResource.Delete "azuread_application" graphIds remoteAbsent
            (metadataOf "" "" "/applications/a1/owners/o2")).trace.filter Event.isLocking) :=
  ⟨(lock_released_once_on_every_path "azuread_application" graphIds remoteFailing
      (metadataOf "/applications/a1" "o1" "")).2.2.2.1 remoteAbsent
      (metadataOf "/applications/a1" "o2" "")
      { ApplicationId := "/applications/a1", OwnerObjectId := "o1" }
      { ApplicationId := "/applications/a1", OwnerObjectId := "o2" } rfl rfl rfl,
    (lock_released_once_on_every_path "azuread_application" graphIds remoteFailing
      (metadataOf "" "" "/applications/a1/owners/o1")).2.2.2.2 remoteAbsent
      (metadataOf "" "" "/applications/a1/owners/o2")
      { ApplicationId := "a1", DirectoryObjectId := "o1" }
      { ApplicationId := "a1", DirectoryObjectId := "o2" } rfl rfl rfl⟩

/-! ## Theorems: `strings.EqualFold` against the folding relation -/

theorem asciiFoldPair_iff (sr tr : Nat) :
    asciiFoldPair sr tr = true ↔ (65 ≤ sr ∧ sr ≤ 90 ∧ tr = sr + 32) := by
  simp only [asciiFoldPair, Bool.and_eq_true, decide_eq_true_eq, beq_iff_eq]
  omega

theorem sameFoldOrbit_step (SimpleFold : Nat → Nat) (r x : Nat)
    (h : SameFoldOrbit SimpleFold (SimpleFold r) x) : SameFoldOrbit SimpleFold r x := by
  obtain ⟨n, hn⟩ := h
  exact ⟨n + 1, by rw [Function.iterate_succ_apply]; exact hn⟩

theorem sameFoldOrbit_symm (SimpleFold : Nat → Nat) (laws : SimpleFoldLaws SimpleFold)
    (a b : Nat) (h : SameFoldOrbit SimpleFold a b) : SameFoldOrbit SimpleFold b a := by
  obtain ⟨n, hn⟩ := h
  obtain ⟨m, hm, hcyc⟩ := laws.cyclic a
  have hmul : ∀ k, SimpleFold^[m * k] a = a := by
    intro k
    rw [Function.iterate_mul]
    exact Function.iterate_fixed hcyc k
  refine ⟨m * n - n, ?_⟩
  rw [← hn, ← Function.iterate_add_apply]
  have hle : n ≤ m * n := Nat.le_mul_of_pos_left n hm
  rw [Nat.sub_add_cancel hle]
  exact hmul n

theorem foldSearch_sound (SimpleFold : Nat → Nat) (sr tr : Nat) :
    ∀ fuel r, foldSearch SimpleFold sr tr fuel r = true → SameFoldOrbit SimpleFold r tr := by
  intro fuel
  induction fuel with
  | zero =>
    intro r h
    unfold foldSearch at h
    split at h
    · exact absurd h (by simp)
    · exact ⟨0, by simpa using h⟩
  | succ fuel ih =>
    intro r h
    unfold foldSearch at h
    split at h
    · exact sameFoldOrbit_step SimpleFold r tr (ih _ h)
    · exact ⟨0, by simpa using h⟩

theorem foldSearch_complete (SimpleFold : Nat → Nat) (laws : SimpleFoldLaws SimpleFold)
    (sr tr : Nat) :
    ∀ n r fuel, SimpleFold^[n] r = tr → sr < r → r ≤ tr → tr - r ≤ fuel →
      foldSearch SimpleFold sr tr fuel r = true := by
  intro n
  induction n with
  | zero =>
    intro r fuel h _ _ _
    have hr : r = tr := by simpa using h
    subst hr
    cases fuel <;> simp [foldSearch]
  | succ n ih =>
    intro r fuel h hlo hhi hfuel
    by_cases hr : r = tr
    · subst hr
      cases fuel <;> simp [foldSearch]
    · have hlt : r < tr := lt_of_le_of_ne hhi hr
      have hnext := laws.next r tr ⟨n + 1, h⟩ hlt
      rw [Function.iterate_succ_apply] at h
      cases fuel with
      | zero => omega
      | succ fuel =>
        unfold foldSearch
        have hcond : (r != sr && decide (r < tr)) = true := by
          simp only [Bool.and_eq_true, bne_iff_ne, ne_eq, decide_eq_true_eq]
          exact ⟨by omega, hlt⟩
        rw [if_pos hcond]
        exact ih (SimpleFold r) fuel h (by omega) hnext.2 (by omega)

/-- The comparison of an ordered pair of distinct runes in `strings.EqualFold`
decides whether they are the same letter up to case. -/
theorem orderedFold_iff (SimpleFold : Nat → Nat) (laws : SimpleFoldLaws SimpleFold)
    (lo hi : Nat) (h : lo < hi) :
    (if hi < RuneSelf then asciiFoldPair lo hi
      else foldSearch SimpleFold lo hi hi (SimpleFold lo)) = true ↔
      SameFoldOrbit SimpleFold lo hi := by
  by_cases hA : hi < RuneSelf
  · rw [if_pos hA, asciiFoldPair_iff]
    exact (laws.ascii lo hi h hA).symm
  · rw [if_neg hA]
    constructor
    · intro hs
      exact sameFoldOrbit_step SimpleFold lo hi (foldSearch_sound SimpleFold lo hi hi _ hs)
    · intro ho
      have hnext := laws.next lo hi ho h
      obtain ⟨n, hn⟩ := ho
      cases n with
      | zero => simp at hn; omega
      | succ n =>
        rw [Function.iterate_succ_apply] at hn
        exact foldSearch_complete SimpleFold laws lo hi n (SimpleFold lo) hi hn hnext.1 hnext.2
          (by omega)

theorem runesFoldEqual_iff (SimpleFold : Nat → Nat) (laws : SimpleFoldLaws SimpleFold)
    (sr tr : Nat) :
    runesFoldEqual SimpleFold sr tr = true ↔ SameFoldOrbit SimpleFold sr tr := by
  unfold runesFoldEqual
  by_cases heq : tr = sr
  · subst heq
    simp only [beq_self_eq_true, if_true, true_iff]
    exact ⟨0, rfl⟩
  · have hne : (tr == sr) = false := by simpa using heq
    simp only [hne, Bool.false_eq_true, if_false]
    by_cases hlt : tr < sr
    · simp only [hlt, if_true]
      rw [orderedFold_iff SimpleFold laws tr sr hlt]
      exact ⟨sameFoldOrbit_symm SimpleFold laws tr sr, sameFoldOrbit_symm SimpleFold laws sr tr⟩
    · simp only [hlt, if_false]
      exact orderedFold_iff SimpleFold laws sr tr (by omega)

theorem runesFoldEqual_self (SimpleFold : Nat → Nat) (r : Nat) :
    runesFoldEqual SimpleFold r r = true := by
  simp [runesFoldEqual]

theorem runesFoldEqual_comm (SimpleFold : Nat → Nat) (sr tr : Nat) :
    runesFoldEqual SimpleFold sr tr = runesFoldEqual SimpleFold tr sr := by
  unfold runesFoldEqual
  by_cases heq : tr = sr
  · subst heq; rfl
  · have hne : (tr == sr) = false := by simpa using heq
    have hne2 : (sr == tr) = false := by simpa using (fun h => heq (Eq.symm h))
    simp only [hne, hne2, Bool.false_eq_true, if_false]
    by_cases hlt : tr < sr
    · have hnlt : ¬ sr < tr := by omega
      simp only [hlt, hnlt, if_true, if_false]
    · have hlt2 : sr < tr := by omega
      simp only [hlt, hlt2, if_true, if_false]

/-- The ASCII fast path of `strings.EqualFold` agrees with its rune loop. -/
theorem equalFoldRunes_eq_unicode (SimpleFold : Nat → Nat) :
    ∀ s t, equalFoldRunes SimpleFold s t = equalFoldUnicode SimpleFold s t := by
  intro s
  induction s with
  | nil =>
    intro t
    cases t <;> simp [equalFoldRunes, equalFoldUnicode]
  | cons sr s ih =>
    intro t
    cases t with
    | nil => simp [equalFoldRunes, equalFoldUnicode]
    | cons tr t =>
      unfold equalFoldRunes
      by_cases hU : (decide (RuneSelf ≤ sr) || decide (RuneSelf ≤ tr)) = true
      · rw [if_pos hU]
      · rw [if_neg hU]
        have hs : sr < RuneSelf ∧ tr < RuneSelf := by
          simp only [Bool.or_eq_true, decide_eq_true_eq, not_or, not_le] at hU
          exact hU
        unfold equalFoldUnicode runesFoldEqual
        by_cases heq : tr = sr
        · subst heq
          simp [ih]
        · have hne : (tr == sr) = false := by simpa using heq
          have hhi : (if tr < sr then sr else tr) < RuneSelf := by
            split <;> omega
          simp only [hne, Bool.false_eq_true, if_false, hhi, if_true, ih]

theorem equalFoldUnicode_iff (SimpleFold : Nat → Nat) (laws : SimpleFoldLaws SimpleFold) :
    ∀ s t, equalFoldUnicode SimpleFold s t = true ↔
      List.Forall₂ (SameFoldOrbit SimpleFold) s t := by
  intro s
  induction s with
  | nil =>
    intro t
    cases t <;> simp [equalFoldUnicode]
  | cons sr s ih =>
    intro t
    cases t with
    | nil => simp [equalFoldUnicode]
    | cons tr t =>
      unfold equalFoldUnicode
      rw [List.forall₂_cons, ← ih t, ← runesFoldEqual_iff SimpleFold laws sr tr]
      by_cases h : runesFoldEqual SimpleFold sr tr = true <;> simp [h]

theorem equalFoldUnicode_self (SimpleFold : Nat → Nat) :
    ∀ s, equalFoldUnicode SimpleFold s s = true := by
  intro s
  induction s with
  | nil => simp [equalFoldUnicode]
  | cons r s ih => simp [equalFoldUnicode, runesFoldEqual_self, ih]

theorem equalFoldUnicode_comm (SimpleFold : Nat → Nat) :
    ∀ s t, equalFoldUnicode SimpleFold s t = equalFoldUnicode SimpleFold t s := by
  intro s
  induction s with
  | nil =>
    intro t
    cases t <;> simp [equalFoldUnicode]
  | cons sr s ih =>
    intro t
    cases t with
    | nil => simp [equalFoldUnicode]
    | cons tr t =>
      unfold equalFoldUnicode
      rw [runesFoldEqual_comm SimpleFold sr tr, ih t]

/-- Go `strings.EqualFold` returns true exactly for strings equal ignoring
letter case, for every folding table that meets the contract of
`unicode.SimpleFold`. -/
theorem EqualFold_iff (SimpleFold : Nat → Nat) (laws : SimpleFoldLaws SimpleFold)
    (s t : String) : EqualFold SimpleFold s t = true ↔ EqualIgnoringCase SimpleFold s t := by
  unfold EqualFold EqualIgnoringCase
  rw [equalFoldRunes_eq_unicode]
  exact equalFoldUnicode_iff SimpleFold laws _ _

theorem EqualFold_self (SimpleFold : Nat → Nat) (s : String) :
    EqualFold SimpleFold s s = true := by
  unfold EqualFold
  rw [equalFoldRunes_eq_unicode]
  exact equalFoldUnicode_self SimpleFold _

theorem EqualFold_comm (SimpleFold : Nat → Nat) (s t : String) :
    EqualFold SimpleFold s t = EqualFold SimpleFold t s := by
  unfold EqualFold
  rw [equalFoldRunes_eq_unicode, equalFoldRunes_eq_unicode]
  exact equalFoldUnicode_comm SimpleFold _ _

theorem asciiSimpleFold_involutive (r : Nat) : asciiSimpleFold (asciiSimpleFold r) = r := by
  unfold asciiSimpleFold
  split_ifs <;> omega

theorem asciiSimpleFold_iterate (n r : Nat) :
    asciiSimpleFold^[n] r = r ∨ asciiSimpleFold^[n] r = asciiSimpleFold r := by
  induction n with
  | zero => left; rfl
  | succ n ih =>
    rw [Function.iterate_succ_apply']
    rcases ih with h | h
    · right; rw [h]
    · left; rw [h, asciiSimpleFold_involutive]

/-- The ASCII folding table meets the contract of `unicode.SimpleFold`. -/
theorem asciiSimpleFold_laws : SimpleFoldLaws asciiSimpleFold where
  cyclic r := ⟨2, by decide, by
    show asciiSimpleFold (asciiSimpleFold r) = r
    exact asciiSimpleFold_involutive r⟩
  next r x h hlt := by
    obtain ⟨n, hn⟩ := h
    rcases asciiSimpleFold_iterate n r with h1 | h1
    · omega
    · rw [h1] at hn
      omega
  ascii r x hlt hx := by
    constructor
    · rintro ⟨n, hn⟩
      rcases asciiSimpleFold_iterate n r with h1 | h1
      · omega
      · rw [h1] at hn
        unfold asciiSimpleFold at hn
        unfold RuneSelf at hx
        split_ifs at hn <;> omega
    · rintro ⟨h1, h2, h3⟩
      refine ⟨1, ?_⟩
      show asciiSimpleFold r = x
      unfold asciiSimpleFold
      rw [if_pos ⟨h1, h2⟩, h3]

/-! ## Theorems: the `Exists` functions and `CaseDifference` -/

theorem existsResourceAppId_spec (SimpleFold : Nat → Nat) (apiClientId : String) :
    ∀ apis : List RequiredResourceAccess, (∀ api ∈ apis, api.ResourceAppId ≠ none) →
      (existsResourceAppId SimpleFold apiClientId apis = .value true ↔
          ∃ api ∈ apis, ∃ rid, api.ResourceAppId = some rid ∧
            EqualFold SimpleFold rid apiClientId = true) ∧
        (existsResourceAppId SimpleFold apiClientId apis = .value true ∨
          existsResourceAppId SimpleFold apiClientId apis = .value false) := by
  intro apis
  induction apis with
  | nil => intro _; simp [existsResourceAppId]
  | cons api rest ih =>
    intro hall
    have hrest := ih (fun a ha => hall a (List.mem_cons_of_mem _ ha))
    cases hrid : api.ResourceAppId with
    | none => exact absurd hrid (hall api (List.mem_cons_self _ _))
    | some rid =>
      unfold existsResourceAppId
      simp only [hrid]
      by_cases hfold : EqualFold SimpleFold rid apiClientId = true
      · simp only [hfold, if_true, true_iff, true_or, and_true]
        exact ⟨api, List.mem_cons_self _ _, rid, hrid, hfold⟩
      · simp only [hfold, Bool.false_eq_true, if_false]
        refine ⟨?_, hrest.2⟩
        rw [hrest.1]
        constructor
        · rintro ⟨a, ha, r, hr, hf⟩
          exact ⟨a, List.mem_cons_of_mem _ ha, r, hr, hf⟩
        · rintro ⟨a, ha, r, hr, hf⟩
          rcases List.mem_cons.mp ha with h | h
          · subst h
            rw [hrid] at hr
            cases hr
            exact absurd hf hfold
          · exact ⟨a, h, r, hr, hf⟩

/-- C8. `ApplicationApiAccessResource.Exists`, for every folding table that
meets the contract of `unicode.SimpleFold`:
(1) when the ID parses, the application is retrieved and every entry of its
required-resource-access list carries a resource app ID, the result is true or
false without error, and it is true exactly when some entry has a resource app
ID equal to the API client ID of the ID ignoring letter case;
(2) when the lookup fails with a 404 response, the result is false without error;
(3) when the required-resource-access list is absent, the result is false
without error;
(4) an error is returned only when the ID does not parse, the lookup fails
with something other than a 404 response, or the model is nil. -/
theorem ApiAccess_Exists_spec (SimpleFold : Nat → Nat) (laws : SimpleFoldLaws SimpleFold)
    (ParseApiAccessID : String → Except String ApiAccessId)
    (GetApplication : ApplicationId → GetApplicationResult) (stateID : String) :
    (∀ id app apis, ParseApiAccessID stateID = .ok id →
        (GetApplication (NewApplicationID id.ApplicationId)).err = none →
        (GetApplication (NewApplicationID id.ApplicationId)).Model = some app →
        app.RequiredResourceAccess = some apis →
        (∀ api ∈ apis, api.ResourceAppId ≠ none) →
        (ApplicationApiAccessResource.Exists SimpleFold ParseApiAccessID GetApplication stateID =
              .value true ↔
            ∃ api ∈ apis, ∃ rid, api.ResourceAppId = some rid ∧
              EqualIgnoringCase SimpleFold rid id.ApiClientId) ∧
          (ApplicationApiAccessResource.Exists SimpleFold ParseApiAccessID GetApplication
                stateID = .value true ∨
            ApplicationApiAccessResource.Exists SimpleFold ParseApiAccessID GetApplication
                stateID = .value false)) ∧
      (∀ id e, ParseApiAccessID stateID = .ok id →
        (GetApplication (NewApplicationID id.ApplicationId)).err = some e →
        WasNotFound (GetApplication (NewApplicationID id.ApplicationId)).HttpResponse = true →
        ApplicationApiAccessResource.Exists SimpleFold ParseApiAccessID GetApplication stateID =
          .value false) ∧
      (∀ id app, ParseApiAccessID stateID = .ok id →
        (GetApplication (NewApplicationID id.ApplicationId)).err = none →
        (GetApplication (NewApplicationID id.ApplicationId)).Model = some app →
        app.RequiredResourceAccess = none →
        ApplicationApiAccessResource.Exists SimpleFold ParseApiAccessID GetApplication stateID =
          .value false) ∧
      (∀ f, ApplicationApiAccessResource.Exists SimpleFold ParseApiAccessID GetApplication
          stateID = .error f →
        (∃ e, ParseApiAccessID stateID = .error e) ∨
        (∃ id e, ParseApiAccessID stateID = .ok id ∧
          (GetApplication (NewApplicationID id.ApplicationId)).err = some e ∧
          WasNotFound (GetApplication (NewApplicationID id.ApplicationId)).HttpResponse =
            false) ∨
        (∃ id, ParseApiAccessID stateID = .ok id ∧
          (GetApplication (NewApplicationID id.ApplicationId)).err = none ∧
          (GetApplication (NewApplicationID id.ApplicationId)).Model = none)) := by
  refine ⟨?_, ?_, ?_, ?_⟩
  · intro id app apis hP hE hM hR hall
    have hloop := existsResourceAppId_spec SimpleFold id.ApiClientId apis hall
    have hrun : ApplicationApiAccessResource.Exists SimpleFold ParseApiAccessID GetApplication
        stateID = existsResourceAppId SimpleFold id.ApiClientId apis := by
      simp [ApplicationApiAccessResource.Exists, hP, hE, hM, hR]
    rw [hrun]
    refine ⟨?_, hloop.2⟩
    rw [hloop.1]
    constructor
    · rintro ⟨a, ha, r, hr, hf⟩
      exact ⟨a, ha, r, hr, (EqualFold_iff SimpleFold laws _ _).mp hf⟩
    · rintro ⟨a, ha, r, hr, hf⟩
      exact ⟨a, ha, r, hr, (EqualFold_iff SimpleFold laws _ _).mpr hf⟩
  · intro id e hP hE hN
    simp [ApplicationApiAccessResource.Exists, hP, hE, hN]
  · intro id app hP hE hM hR
    simp [ApplicationApiAccessResource.Exists, hP, hE, hM, hR]
  · intro f hf
    cases hP : ParseApiAccessID stateID with
    | error e => exact Or.inl ⟨e, rfl⟩
    | ok id =>
      right
      cases hE : (GetApplication (NewApplicationID id.ApplicationId)).err with
      | some e =>
        left
        refine ⟨id, e, rfl, hE, ?_⟩
        cases hN : WasNotFound (GetApplication (NewApplicationID id.ApplicationId)).HttpResponse
        · rfl
        · simp [ApplicationApiAccessResource.Exists, hP, hE, hN] at hf
      | none =>
        right
        refine ⟨id, rfl, hE, ?_⟩
        cases hM : (GetApplication (NewApplicationID id.ApplicationId)).Model with
        | none => rfl
        | some app =>
          exfalso
          cases hR : app.RequiredResourceAccess with
          | none => simp [ApplicationApiAccessResource.Exists, hP, hE, hM, hR] at hf
          | some apis =>
            have hrun : ApplicationApiAccessResource.Exists SimpleFold ParseApiAccessID
                GetApplication stateID = existsResourceAppId SimpleFold id.ApiClientId apis := by
              simp [ApplicationApiAccessResource.Exists, hP, hE, hM, hR]
            rw [hrun] at hf
            clear hrun hR
            induction apis with
            | nil => simp [existsResourceAppId] at hf
            | cons api rest ih =>
              unfold existsResourceAppId at hf
              cases hrid : api.ResourceAppId with
              | none => simp [hrid] at hf
              | some rid =>
                simp only [hrid] at hf
                split at hf
                · simp at hf
                · exact ih hf

theorem ApiAccess_Exists_spec_witness :
    ((ApplicationApiAccessResource.Exists asciiSimpleFold parseApiAccessExample
            getApplicationExample
            "/applications/a1/apiAccess/00000003-0000-0000-c000-000000000000" = .value true ↔
          ∃ api ∈ [({ ResourceAppId := some "11111111-2222-3333-4444-555555555555" } :
                RequiredResourceAccess),
              { ResourceAppId := some "00000003-0000-0000-C000-000000000000" }],
            ∃ rid, api.ResourceAppId = some rid ∧
              EqualIgnoringCase asciiSimpleFold rid "00000003-0000-0000-c000-000000000000") ∧
        (ApplicationApiAccessResource.Exists asciiSimpleFold parseApiAccessExample
            getApplicationExample
            "/applications/a1/apiAccess/00000003-0000-0000-c000-000000000000" = .value true ∨
          ApplicationApiAccessResource.Exists asciiSimpleFold parseApiAccessExample
            getApplicationExample
            "/applications/a1/apiAccess/00000003-0000-0000-c000-000000000000" =
              .value false)) ∧
      ApplicationApiAccessResource.Exists asciiSimpleFold parseApiAccessExample
          getApplicationExample
          "/applications/a5/apiAccess/00000003-0000-0000-c000-000000000000" = .value false ∧
      ApplicationApiAccessResource.Exists asciiSimpleFold parseApiAccessExample
          getApplicationExample
          "/applications/a2/apiAccess/00000003-0000-0000-c000-000000000000" = .value false ∧
      ((∃ e, parseApiAccessExample
            "/applications/a3/apiAccess/00000003-0000-0000-c000-000000000000" = .error e) ∨
        (∃ id e, parseApiAccessExample
            "/applications/a3/apiAccess/00000003-0000-0000-c000-000000000000" = .ok id ∧
          (getApplicationExample (NewApplicationID id.ApplicationId)).err = some e ∧
          WasNotFound (getApplicationExample (NewApplicationID id.ApplicationId)).HttpResponse =
            false) ∨
        (∃ id, parseApiAccessExample
            "/applications/a3/apiAccess/00000003-0000-0000-c000-000000000000" = .ok id ∧
          (getApplicationExample (NewApplicationID id.ApplicationId)).err = none ∧
          (getApplicationExample (NewApplicationID id.ApplicationId)).Model = none)) :=
  ⟨(ApiAccess_Exists_spec asciiSimpleFold asciiSimpleFold_laws parseApiAccessExample
      getApplicationExample "/applications/a1/apiAccess/00000003-0000-0000-c000-000000000000").1
      { ApplicationId := "a1", ApiClientId := "00000003-0000-0000-c000-000000000000" }
      { RequiredResourceAccess := some
          ([{ ResourceAppId := some "11111111-2222-3333-4444-555555555555" },
            { ResourceAppId := some "00000003-0000-0000-C000-000000000000" }]) }
      [{ ResourceAppId := some "11111111-2222-3333-4444-555555555555" },
        { ResourceAppId := some "00000003-0000-0000-C000-000000000000" }]
      rfl rfl rfl rfl (by decide),
    (ApiAccess_Exists_spec asciiSimpleFold asciiSimpleFold_laws parseApiAccessExample
      getApplicationExample
      "/applications/a5/apiAccess/00000003-0000-0000-c000-000000000000").2.1
      { ApplicationId := "a5", ApiClientId := "00000003-0000-0000-c000-000000000000" }
      "unexpected status 404" rfl rfl rfl,
    (ApiAccess_Exists_spec asciiSimpleFold asciiSimpleFold_laws parseApiAccessExample
      getApplicationExample
      "/applications/a2/apiAccess/00000003-0000-0000-c000-000000000000").2.2.1
      { ApplicationId := "a2", ApiClientId := "00000003-0000-0000-c000-000000000000" }
      { RequiredResourceAccess := none } rfl rfl rfl rfl,
    (ApiAccess_Exists_spec asciiSimpleFold asciiSimpleFold_laws parseApiAccessExample
      getApplicationExample
      "/applications/a3/apiAccess/00000003-0000-0000-c000-000000000000").2.2.2
      (ExistsFailure.modelWasNil { ApplicationId := "a3" }) rfl⟩

/-- C9 (counterexample). The one listed member has an object ID that equals
the member object ID of the resource ID up to letter case, and `Exists`
returns false. -/
theorem DirectoryRoleMember_Exists_is_case_sensitive :
    (∃ m ∈ [({ Id := some "9A5D68DD-52B0-4CC2-BD40-ABCF44AC3A30" } : DirectoryObject)],
        EqualFold asciiSimpleFold (pointerFrom m.Id) "9a5d68dd-52b0-4cc2-bd40-abcf44ac3a30" =
          true) ∧
      (listMembersExample (NewDirectoryRoleID "r1")
          "id eq \x279a5d68dd-52b0-4cc2-bd40-abcf44ac3a30\x27").Model =
        some [{ Id := some "9A5D68DD-52B0-4CC2-BD40-ABCF44AC3A30" }] ∧
      DirectoryRoleMemberResource.Exists parseDirectoryRoleMemberExample listMembersExample
          "/directoryRoles/r1/members/9a5d68dd-52b0-4cc2-bd40-abcf44ac3a30" = .value false := by
  refine ⟨⟨_, List.mem_singleton.mpr rfl, by decide⟩, rfl, by decide⟩

theorem existsMember_iff (directoryObjectId : String) :
    ∀ members : List DirectoryObject, existsMember directoryObjectId members = true ↔
      ∃ m ∈ members, pointerFrom m.Id = directoryObjectId := by
  intro members
  induction members with
  | nil => simp [existsMember]
  | cons m rest ih =>
    unfold existsMember
    by_cases h : pointerFrom m.Id = directoryObjectId
    · simp [h]
    · simp [h, ih]

/-- C9 (amended). When the ID parses and the member list is retrieved,
`DirectoryRoleMemberResource.Exists` returns true or false without error, and
true exactly when some listed member has an object ID identical, character for
character, to the member object ID of the resource ID. -/
theorem DirectoryRoleMember_Exists_iff_identical
    (ParseDirectoryRoleIdMemberID : String → Except String DirectoryRoleIdMemberId)
    (ListMembers : DirectoryRoleId → String → ListMembersResult) (stateID : String)
    (id : DirectoryRoleIdMemberId) (members : List DirectoryObject)
    (hParse : ParseDirectoryRoleIdMemberID stateID = .ok id)
    (hErr : (ListMembers (NewDirectoryRoleID id.DirectoryRoleId)
      ("id eq \x27" ++ id.DirectoryObjectId ++ "\x27")).err = none)
    (hModel : (ListMembers (NewDirectoryRoleID id.DirectoryRoleId)
      ("id eq \x27" ++ id.DirectoryObjectId ++ "\x27")).Model = some members) :
    (DirectoryRoleMemberResource.Exists ParseDirectoryRoleIdMemberID ListMembers stateID =
          .value true ↔
        ∃ m ∈ members, pointerFrom m.Id = id.DirectoryObjectId) ∧
      (DirectoryRoleMemberResource.Exists ParseDirectoryRoleIdMemberID ListMembers stateID =
          .value false ↔
        ¬ ∃ m ∈ members, pointerFrom m.Id = id.DirectoryObjectId) := by
  rw [← existsMember_iff]
  unfold DirectoryRoleMemberResource.Exists
  simp only [hParse, hErr, hModel]
  cases existsMember id.DirectoryObjectId members <;> simp

theorem DirectoryRoleMember_Exists_iff_identical_witness :
    (DirectoryRoleMemberResource.Exists parseDirectoryRoleMemberExample listMembersExample
          "/directoryRoles/r1/members/9A5D68DD-52B0-4CC2-BD40-ABCF44AC3A30" = .value true ↔
        ∃ m ∈ [({ Id := some "9A5D68DD-52B0-4CC2-BD40-ABCF44AC3A30" } : DirectoryObject)],
          pointerFrom m.Id = "9A5D68DD-52B0-4CC2-BD40-ABCF44AC3A30") ∧
      (DirectoryRoleMemberResource.Exists parseDirectoryRoleMemberExample listMembersExample
          "/directoryRoles/r1/members/9A5D68DD-52B0-4CC2-BD40-ABCF44AC3A30" = .value false ↔
        ¬ ∃ m ∈ [({ Id := some "9A5D68DD-52B0-4CC2-BD40-ABCF44AC3A30" } : DirectoryObject)],
          pointerFrom m.Id = "9A5D68DD-52B0-4CC2-BD40-ABCF44AC3A30") :=
  DirectoryRoleMember_Exists_iff_identical parseDirectoryRoleMemberExample listMembersExample
    "/directoryRoles/r1/members/9A5D68DD-52B0-4CC2-BD40-ABCF44AC3A30"
    { DirectoryRoleId := "r1", DirectoryObjectId := "9A5D68DD-52B0-4CC2-BD40-ABCF44AC3A30" }
    [{ Id := some "9A5D68DD-52B0-4CC2-BD40-ABCF44AC3A30" }] rfl rfl rfl

/-- C10. For every folding table that meets the contract of
`unicode.SimpleFold`, `suppress.CaseDifference(key, old, new, d)` is true
exactly when `old` and `new` are equal ignoring letter case; its result is the
same for every other key and resource data, it is true when `old = new`, and
it is unchanged when `old` and `new` are swapped. -/
theorem CaseDifference_spec (SimpleFold : Nat → Nat) (laws : SimpleFoldLaws SimpleFold)
    (key old new : String) (d : Option ResourceData) :
    (CaseDifference SimpleFold key old new d = true ↔ EqualIgnoringCase SimpleFold old new) ∧
      (∀ (key2 : String) (d2 : Option ResourceData),
        CaseDifference SimpleFold key2 old new d2 = CaseDifference SimpleFold key old new d) ∧
      (old = new → CaseDifference SimpleFold key old new d = true) ∧
      CaseDifference SimpleFold key new old d = CaseDifference SimpleFold key old new d := by
  refine ⟨EqualFold_iff SimpleFold laws old new, fun _ _ => rfl, ?_,
    EqualFold_comm SimpleFold new old⟩
  intro h
  subst h
  exact EqualFold_self SimpleFold old

theorem CaseDifference_spec_witness :
    (CaseDifference asciiSimpleFold "subject_type" "SingleUser" "singleuser" none = true ↔
        EqualIgnoringCase asciiSimpleFold "SingleUser" "singleuser") ∧
      (∀ (key2 : String) (d2 : Option ResourceData),
        CaseDifference asciiSimpleFold key2 "SingleUser" "singleuser" d2 =
          CaseDifference asciiSimpleFold "subject_type" "SingleUser" "singleuser" none) ∧
      ("SingleUser" = "singleuser" →
        CaseDifference asciiSimpleFold "subject_type" "SingleUser" "singleuser" none = true) ∧
      CaseDifference asciiSimpleFold "subject_type" "singleuser" "SingleUser" none =
        CaseDifference asciiSimpleFold "subject_type" "SingleUser" "singleuser" none :=
  CaseDifference_spec asciiSimpleFold asciiSimpleFold_laws "subject_type" "SingleUser"
    "singleuser" none

/-! ## Theorems: the `azuread_domains` data source -/

theorem collect_domains (state : DomainsDataSourceModel) :
    ∀ (result : List StableDomain) (acc : List String × List Domain),
      (DomainsDataSource.collect state result acc).2 =
        acc.2 ++ result.filterMap (DomainsDataSource.kept state) := by
  intro result
  induction result with
  | nil => intro acc; simp [DomainsDataSource.collect]
  | cons v rest ih =>
    intro acc
    have hstep : DomainsDataSource.collect state (v :: rest) acc =
        DomainsDataSource.collect state rest (DomainsDataSource.visit state acc v) := rfl
    rw [hstep, ih, List.filterMap_cons]
    cases hs : DomainsDataSource.skips state v with
    | true =>
      have hk : DomainsDataSource.kept state v = none := by simp [DomainsDataSource.kept, hs]
      have hv : DomainsDataSource.visit state acc v = acc := by
        simp [DomainsDataSource.visit, hs]
      rw [hk, hv]
    | false =>
      cases hid : v.Id with
      | none =>
        have hk : DomainsDataSource.kept state v = none := by
          simp [DomainsDataSource.kept, hs, hid]
        have hv : DomainsDataSource.visit state acc v = acc := by
          simp [DomainsDataSource.visit, hs, hid]
        rw [hk, hv]
      | some id =>
        have hk : DomainsDataSource.kept state v = some (DomainsDataSource.entry v id) := by
          simp [DomainsDataSource.kept, hs, hid]
        have hv : DomainsDataSource.visit state acc v =
            (acc.1 ++ [id], acc.2 ++ [DomainsDataSource.entry v id]) := by
          simp [DomainsDataSource.visit, hs, hid]
        rw [hk, hv]
        simp

theorem mem_kept_iff (state : DomainsDataSourceModel) (v : StableDomain) (e : Domain) :
    DomainsDataSource.kept state v = some e ↔
      DomainsDataSource.skips state v = false ∧
        v.Id = some e.DomainName ∧ e = DomainsDataSource.entry v e.DomainName := by
  unfold DomainsDataSource.kept
  cases hs : DomainsDataSource.skips state v with
  | true => simp
  | false =>
    cases hid : v.Id with
    | none => simp
    | some id =>
      simp only [Bool.false_eq_true, if_false, Option.some.injEq, true_and]
      constructor
      · intro h
        subst h
        exact ⟨rfl, rfl⟩
      · rintro ⟨h1, h2⟩
        rw [h2, h1]

/-- The state `Read` encodes has, as its domains, the decoded ones followed by
the entries of the kept domains of the response, in order. -/
theorem Read_encoded_domains (tenantId : String) (digest : String → String)
    (decode : Except String DomainsDataSourceModel) (listDomains : ListDomainsResult)
    (encode : DomainsDataSourceModel → Option String) (state : DomainsDataSourceModel)
    (result : List StableDomain) (out : DomainsDataSourceModel)
    (hDecode : decode = .ok state) (hModel : listDomains.Model = some result)
    (hOut : (DomainsDataSource.Read tenantId digest decode listDomains encode).encoded =
      some out) :
    out.Domains = state.Domains ++ result.filterMap (DomainsDataSource.kept state) := by
  subst hDecode
  unfold DomainsDataSource.Read at hOut
  simp only at hOut
  cases hE : listDomains.err with
  | some e => simp [hE] at hOut
  | none =>
    simp only [hE, hModel] at hOut
    split at hOut
    · simp at hOut
    · simp only [Option.some.injEq] at hOut
      rw [← hOut]
      exact collect_domains state result _

theorem serviceIsSupported_iff (serviceNeeded : String) :
    ∀ l : List String, serviceIsSupported serviceNeeded l = true ↔ serviceNeeded ∈ l := by
  intro l
  induction l with
  | nil => simp [serviceIsSupported]
  | cons x rest ih =>
    unfold serviceIsSupported
    by_cases h : serviceNeeded = x
    · simp [h]
    · simp [h, ih]

theorem countSupported_le (l : List String) :
    ∀ needed : List String, countSupported l needed ≤ needed.length := by
  intro needed
  induction needed with
  | nil => simp [countSupported]
  | cons x rest ih =>
    unfold countSupported
    split <;> simp <;> omega

/-- The service filter lets a domain with a list of supported services through
exactly when every needed service is in that list. -/
theorem countSupported_not_lt_iff (l : List String) :
    ∀ needed : List String,
      ¬ countSupported l needed < needed.length ↔ ∀ s ∈ needed, s ∈ l := by
  intro needed
  induction needed with
  | nil => simp [countSupported]
  | cons x rest ih =>
    have hle := countSupported_le l rest
    unfold countSupported
    by_cases hx : serviceIsSupported x l = true
    · have hmem := (serviceIsSupported_iff x l).mp hx
      simp only [hx, if_true, List.length_cons, List.mem_cons, forall_eq_or_imp, hmem, true_and]
      rw [← ih]
      omega
    · have hmem : x ∉ l := fun h => hx ((serviceIsSupported_iff x l).mpr h)
      simp only [hx, Bool.false_eq_true, if_false, List.length_cons, List.mem_cons,
        forall_eq_or_imp, hmem, false_and, iff_false, not_not]
      omega

theorem skips_false_initial (state : DomainsDataSourceModel) (v : StableDomain)
    (hOnly : state.OnlyInitial = true) (h : DomainsDataSource.skips state v = false) :
    v.IsInitial ≠ some false := by
  intro hv
  unfold DomainsDataSource.skips at h
  simp only [hOnly, hv, setAndFalse, Bool.not_false, Bool.and_self, if_true] at h
  split at h
  · simp at h
  · split at h <;> simp at h

theorem skips_false_services (state : DomainsDataSourceModel) (v : StableDomain)
    (l : List String) (hNeeded : state.SupportsServices ≠ [])
    (hl : v.SupportedServices = some l) (h : DomainsDataSource.skips state v = false) :
    ∀ s ∈ state.SupportsServices, s ∈ l := by
  have hlen : state.SupportsServices.length > 0 := List.length_pos.mpr hNeeded
  rw [← countSupported_not_lt_iff]
  intro hlt
  unfold DomainsDataSource.skips at h
  simp only [hl, hlen, hlt, decide_True, if_true] at h
  repeat (split at h <;> try simp at h)

/-- C11 (the code at the failing input). With `only_initial = true` and a
response in which one domain carries no `isInitial` property, `Read` returns a
domains list with an entry whose `initial` is false, against the description
of the argument, "Set to `true` to only return the initial domain". -/
theorem onlyInitial_returns_entry_not_initial :
    (domainsConfigOf true []).OnlyInitial = true ∧
      ∃ out, (DomainsDataSource.Read "t1" exampleDigest (.ok (domainsConfigOf true []))
          { Model := some [domainInitial, domainCustom, domainBare], err := none }
          (fun _ => none)).encoded = some out ∧
        ∃ e ∈ out.Domains, e.Initial = false :=
  ⟨rfl, _, rfl, DomainsDataSource.entry domainBare "fabrikam.com", by decide, rfl⟩

/-- How far the `only_initial` filter reaches.  When `only_initial` is true
(and the computed `domains` attribute decodes empty), every entry of the
resulting domains list comes from a domain of the response that has the
entry's name as `Id`; the entry has `initial = true` whenever that domain
carries the `isInitial` property.  The defect is confined to the second
alternative: a domain without the property is not filtered out and is emitted
with `initial = false`. -/
theorem onlyInitial_entries (tenantId : String) (digest : String → String)
    (decode : Except String DomainsDataSourceModel) (listDomains : ListDomainsResult)
    (encode : DomainsDataSourceModel → Option String) (state : DomainsDataSourceModel)
    (result : List StableDomain) (out : DomainsDataSourceModel)
    (hDecode : decode = .ok state) (hEmpty : state.Domains = [])
    (hOnly : state.OnlyInitial = true) (hModel : listDomains.Model = some result)
    (hOut : (DomainsDataSource.Read tenantId digest decode listDomains encode).encoded =
      some out) :
    ∀ e ∈ out.Domains, ∃ v ∈ result, v.Id = some e.DomainName ∧
      ((v.IsInitial = some true ∧ e.Initial = true) ∨
        (v.IsInitial = none ∧ e.Initial = false)) := by
  intro e he
  rw [Read_encoded_domains tenantId digest decode listDomains encode state result out hDecode
    hModel hOut, hEmpty, List.nil_append, List.mem_filterMap] at he
  obtain ⟨v, hv, hk⟩ := he
  obtain ⟨hskip, hid, hentry⟩ := (mem_kept_iff state v e).mp hk
  refine ⟨v, hv, hid, ?_⟩
  have hnot := skips_false_initial state v hOnly hskip
  have hInit : e.Initial = setAndTrue v.IsInitial := by rw [hentry]; rfl
  cases hI : v.IsInitial with
  | none => right; exact ⟨rfl, by rw [hInit, hI]; rfl⟩
  | some b =>
    cases b with
    | false => exact absurd hI hnot
    | true => left; exact ⟨rfl, by rw [hInit, hI]; rfl⟩

theorem onlyInitial_entries_witness :
    ∃ v ∈ [domainInitial, domainCustom, domainBare],
      v.Id = some (DomainsDataSource.entry domainBare "fabrikam.com").DomainName ∧
        ((v.IsInitial = some true ∧
            (DomainsDataSource.entry domainBare "fabrikam.com").Initial = true) ∨
          (v.IsInitial = none ∧
            (DomainsDataSource.entry domainBare "fabrikam.com").Initial = false)) :=
  onlyInitial_entries "t1" exampleDigest (.ok (domainsConfigOf true []))
    { Model := some [domainInitial, domainCustom, domainBare], err := none } (fun _ => none)
    (domainsConfigOf true []) [domainInitial, domainCustom, domainBare]
    { domainsConfigOf true [] with
      Domains := (domainsConfigOf true []).Domains ++
        [DomainsDataSource.entry domainInitial "contoso.onmicrosoft.com",
          DomainsDataSource.entry domainBare "fabrikam.com"] }
    rfl rfl rfl rfl rfl (DomainsDataSource.entry domainBare "fabrikam.com") (by decide)

/-- C12 (the code at the failing input). With `supports_services = ["Email"]`
and a response in which one domain carries no `supportedServices` property,
`Read` returns that domain with an empty `supported_services`, which lacks
`Email`, against the description of the argument, "A list of supported
services that must be supported by a domain". -/
theorem supportsServices_returns_entry_without_service :
    (domainsConfigOf false ["Email"]).SupportsServices ≠ [] ∧
      ∃ out, (DomainsDataSource.Read "t1" exampleDigest (.ok (domainsConfigOf false ["Email"]))
          { Model := some [domainInitial, domainBare], err := none }
          (fun _ => none)).encoded = some out ∧
        ∃ e ∈ out.Domains, ∃ s ∈ (domainsConfigOf false ["Email"]).SupportsServices,
          s ∉ e.SupportedServices :=
  ⟨by decide, _, rfl, DomainsDataSource.entry domainBare "fabrikam.com", by decide,
    "Email", by decide, by decide⟩

/-- How far the `supports_services` filter reaches.  For a non-empty
`supports_services` (and the computed `domains` attribute decoding empty),
every entry of the resulting domains list comes from a domain of the response
that has the entry's name as `Id`; the entry supports every listed service
whenever that domain carries a list of supported services.  The defect is
confined to the second alternative: a domain without a list is not filtered
out and is emitted with an empty `supported_services`. -/
theorem supportsServices_entries (tenantId : String) (digest : String → String)
    (decode : Except String DomainsDataSourceModel) (listDomains : ListDomainsResult)
    (encode : DomainsDataSourceModel → Option String) (state : DomainsDataSourceModel)
    (result : List StableDomain) (out : DomainsDataSourceModel)
    (hDecode : decode = .ok state) (hEmpty : state.Domains = [])
    (hNeeded : state.SupportsServices ≠ []) (hModel : listDomains.Model = some result)
    (hOut : (DomainsDataSource.Read tenantId digest decode listDomains encode).encoded =
      some out) :
    ∀ e ∈ out.Domains, ∃ v ∈ result, v.Id = some e.DomainName ∧
      ((v.SupportedServices = some e.SupportedServices ∧
          ∀ s ∈ state.SupportsServices, s ∈ e.SupportedServices) ∨
        (v.SupportedServices = none ∧ e.SupportedServices = [])) := by
  intro e he
  rw [Read_encoded_domains tenantId digest decode listDomains encode state result out hDecode
    hModel hOut, hEmpty, List.nil_append, List.mem_filterMap] at he
  obtain ⟨v, hv, hk⟩ := he
  obtain ⟨hskip, hid, hentry⟩ := (mem_kept_iff state v e).mp hk
  refine ⟨v, hv, hid, ?_⟩
  have hServ : e.SupportedServices =
      (match v.SupportedServices with | some l => l | none => []) := by rw [hentry]; rfl
  cases hS : v.SupportedServices with
  | none => right; exact ⟨rfl, by rw [hServ, hS]⟩
  | some l =>
    left
    have hel : e.SupportedServices = l := by rw [hServ, hS]
    rw [hel]
    exact ⟨rfl, skips_false_services state v l hNeeded hS hskip⟩

theorem supportsServices_entries_witness :
    ∃ v ∈ [domainInitial, domainBare],
      v.Id = some (DomainsDataSource.entry domainInitial "contoso.onmicrosoft.com").DomainName ∧
        ((v.SupportedServices =
              some (DomainsDataSource.entry domainInitial
                "contoso.onmicrosoft.com").SupportedServices ∧
            ∀ s ∈ (domainsConfigOf false ["Email"]).SupportsServices,
              s ∈ (DomainsDataSource.entry domainInitial
                "contoso.onmicrosoft.com").SupportedServices) ∨
          (v.SupportedServices = none ∧
            (DomainsDataSource.entry domainInitial
              "contoso.onmicrosoft.com").SupportedServices = [])) :=
  supportsServices_entries "t1" exampleDigest (.ok (domainsConfigOf false ["Email"]))
    { Model := some [domainInitial, domainBare], err := none } (fun _ => none)
    (domainsConfigOf false ["Email"]) [domainInitial, domainBare]
    { domainsConfigOf false ["Email"] with
      Domains := (domainsConfigOf false ["Email"]).Domains ++
        [DomainsDataSource.entry domainInitial "contoso.onmicrosoft.com",
          DomainsDataSource.entry domainBare "fabrikam.com"] }
    rfl rfl (by decide) rfl rfl
    (DomainsDataSource.entry domainInitial "contoso.onmicrosoft.com") (by decide)

/-- C13. When the configuration decodes (its computed `domains` attribute
empty) and listing succeeds with a non-nil result, `Read` fails with
"no domains found for the provided filters" exactly when no domain of the
response both passes all filters and has an `Id`; in that case it sets no ID
and encodes no state, and otherwise it sets an ID and encodes a state with at
least one domain. -/
theorem Read_noDomainsFound_iff (tenantId : String) (digest : String → String)
    (decode : Except String DomainsDataSourceModel) (listDomains : ListDomainsResult)
    (encode : DomainsDataSourceModel → Option String) (state : DomainsDataSourceModel)
    (result : List StableDomain)
    (hDecode : decode = .ok state) (hEmpty : state.Domains = [])
    (hErr : listDomains.err = none) (hModel : listDomains.Model = some result) :
    ((DomainsDataSource.Read tenantId digest decode listDomains encode).err =
          some .noDomainsFound ↔
        ¬ ∃ v ∈ result, DomainsDataSource.skips state v = false ∧ v.Id ≠ none) ∧
      DomainsFailure.noDomainsFound.Error = "no domains found for the provided filters" ∧
      ((DomainsDataSource.Read tenantId digest decode listDomains encode).err =
          some .noDomainsFound →
        (DomainsDataSource.Read tenantId digest decode listDomains encode).id = none ∧
          (DomainsDataSource.Read tenantId digest decode listDomains encode).encoded = none) ∧
      ((DomainsDataSource.Read tenantId digest decode listDomains encode).err ≠
          some .noDomainsFound →
        (∃ i, (DomainsDataSource.Read tenantId digest decode listDomains encode).id = some i) ∧
          ∃ out, (DomainsDataSource.Read tenantId digest decode listDomains encode).encoded =
              some out ∧ out.Domains ≠ []) := by
  have hcol : (DomainsDataSource.collect state result ([], state.Domains)).2 =
      result.filterMap (DomainsDataSource.kept state) := by
    rw [collect_domains, hEmpty, List.nil_append]
  have hnil : result.filterMap (DomainsDataSource.kept state) = [] ↔
      ¬ ∃ v ∈ result, DomainsDataSource.skips state v = false ∧ v.Id ≠ none := by
    rw [List.filterMap_eq_nil_iff]
    constructor
    · rintro h ⟨v, hv, hs, hid⟩
      have hk := h v hv
      unfold DomainsDataSource.kept at hk
      rw [hs] at hk
      cases hI : v.Id with
      | none => exact hid hI
      | some i => simp [hI] at hk
    · intro h v hv
      unfold DomainsDataSource.kept
      cases hs : DomainsDataSource.skips state v with
      | true => simp
      | false =>
        cases hI : v.Id with
        | none => simp
        | some i => exact absurd ⟨v, hv, hs, by simp [hI]⟩ h
  subst hDecode
  unfold DomainsDataSource.Read
  simp only [hErr, hModel, hcol]
  by_cases hz : result.filterMap (DomainsDataSource.kept state) = []
  · have hlen : ((result.filterMap (DomainsDataSource.kept state)).length == 0) = true := by
      simp [hz]
    simp only [hlen, if_true, true_iff, forall_true_left, and_self, and_true]
    exact ⟨hnil.mp hz, rfl, trivial, fun h => absurd rfl h⟩
  · have hlen : ((result.filterMap (DomainsDataSource.kept state)).length == 0) = false := by
      simp [hz]
    simp only [hlen, Bool.false_eq_true, if_false]
    have hne : Option.map DomainsFailure.unwrapped (encode
        { state with Domains := result.filterMap (DomainsDataSource.kept state) }) ≠
        some DomainsFailure.noDomainsFound := by
      cases encode { state with Domains := result.filterMap (DomainsDataSource.kept state) } <;>
        simp
    refine ⟨⟨fun h => absurd h hne, fun h => absurd (hnil.mpr h) hz⟩, rfl,
      fun h => absurd h hne, fun _ => ⟨⟨_, rfl⟩, _, rfl, hz⟩⟩

theorem Read_noDomainsFound_iff_witness :
    ((DomainsDataSource.Read "t1" exampleDigest (.ok (domainsConfigOf true []))
          { Model := some [domainCustom], err := none } (fun _ => none)).err =
          some .noDomainsFound ↔
        ¬ ∃ v ∈ [domainCustom],
          DomainsDataSource.skips (domainsConfigOf true []) v = false ∧ v.Id ≠ none) ∧
      DomainsFailure.noDomainsFound.Error = "no domains found for the provided filters" ∧
      ((DomainsDataSource.Read "t1" exampleDigest (.ok (domainsConfigOf true []))
          { Model := some [domainCustom], err := none } (fun _ => none)).err =
          some .noDomainsFound →
        (DomainsDataSource.Read "t1" exampleDigest (.ok (domainsConfigOf true []))
            { Model := some [domainCustom], err := none } (fun _ => none)).id = none ∧
          (DomainsDataSource.Read "t1" exampleDigest (.ok (domainsConfigOf true []))
            { Model := some [domainCustom], err := none } (fun _ => none)).encoded = none) ∧
      ((DomainsDataSource.Read "t1" exampleDigest (.ok (domainsConfigOf true []))
          { Model := some [domainCustom], err := none } (fun _ => none)).err ≠
          some .noDomainsFound →
        (∃ i, (DomainsDataSource.Read "t1" exampleDigest (.ok (domainsConfigOf true []))
            { Model := some [domainCustom], err := none } (fun _ => none)).id = some i) ∧
          ∃ out, (DomainsDataSource.Read "t1" exampleDigest (.ok (domainsConfigOf true []))
              { Model := some [domainCustom], err := none } (fun _ => none)).encoded =
              some out ∧ out.Domains ≠ []) :=
  Read_noDomainsFound_iff "t1" exampleDigest (.ok (domainsConfigOf true []))
    { Model := some [domainCustom], err := none } (fun _ => none) (domainsConfigOf true [])
    [domainCustom] rfl rfl rfl rfl

/-! ## Theorems: privileged access group schedules -/

/-- C14. For every old value that is a valid RFC 3339 time earlier than the
current time, the `start_date` diff-suppress function returns true, whatever
the key, the new value and the resource data. -/
theorem startDate_in_past_is_suppressed (parse : String → Except String Int) (now : Int)
    (k old new : String) (d : Option ResourceData) (oldTime : Int)
    (hOld : parse old = .ok oldTime) (hPast : oldTime < now) :
    startDateDiffSuppressFunc parse now k old new d = true := by
  simp [startDateDiffSuppressFunc, hOld, hPast]

theorem startDate_in_past_is_suppressed_witness :
    startDateDiffSuppressFunc parseRFC3339Example exampleNow "start_date"
      "2020-01-01T00:00:00Z" "2030-06-01T00:00:00Z" none = true :=
  startDate_in_past_is_suppressed parseRFC3339Example exampleNow "start_date"
    "2020-01-01T00:00:00Z" "2030-06-01T00:00:00Z" none 1577836800000000000 rfl (by decide)

/-- For a valid old value the `start_date` diff-suppress function returns
before it looks at the new value: the result is whether the old time lies
before the current time. -/
theorem startDate_valid_old_ignores_new (parse : String → Except String Int) (now : Int)
    (k old new : String) (d : Option ResourceData) (oldTime : Int)
    (hOld : parse old = .ok oldTime) :
    startDateDiffSuppressFunc parse now k old new d = decide (oldTime < now) := by
  simp [startDateDiffSuppressFunc, hOld]

/-- C15 (the code at the failing input). The old start date lies in the future,
the new one is one minute later, so earlier than the old date plus 5 minutes,
and the `start_date` diff-suppress function returns false. -/
theorem startDate_within_five_minutes_not_suppressed :
    parseRFC3339Example "2030-01-01T00:00:00Z" = .ok 1893456000000000000 ∧
      parseRFC3339Example "2030-01-01T00:01:00Z" = .ok 1893456060000000000 ∧
      (1893456060000000000 : Int) < 1893456000000000000 + 5 * Minute ∧
      startDateDiffSuppressFunc parseRFC3339Example exampleNow "start_date"
        "2030-01-01T00:00:00Z" "2030-01-01T00:01:00Z" none = false :=
  ⟨rfl, rfl, by decide, rfl⟩

/-- C16. For a model whose `start_date` and `expiration_date` are both
non-empty valid RFC 3339 times: when the expiration date is earlier than the
start date plus 5 minutes, `buildScheduleRequest` returns no schedule but the
error "`expiration_date` must be at least 5 minutes after `start_date`"; when
it is exactly 5 minutes after the start date, that error is not returned. -/
theorem expiration_before_start_rejected (parse : String → Except String Int) (now : Int)
    (HasChange : String → Bool) (model : PrivilegedAccessGroupScheduleModel)
    (startDate expiryDate : Int)
    (hStartSet : model.StartDate ≠ "") (hExpirySet : model.ExpirationDate ≠ "")
    (hStart : parse model.StartDate = .ok startDate)
    (hExpiry : parse model.ExpirationDate = .ok expiryDate) :
    (expiryDate < startDate + 5 * Minute →
        buildScheduleRequest parse now HasChange model = .error .expirationBeforeStart) ∧
      ScheduleFailure.expirationBeforeStart.Error =
        "`expiration_date` must be at least 5 minutes after `start_date`" ∧
      (expiryDate = startDate + 5 * Minute →
        buildScheduleRequest parse now HasChange model ≠ .error .expirationBeforeStart) := by
  refine ⟨?_, rfl, ?_⟩
  · intro hlt
    simp [buildScheduleRequest, hStartSet, hExpirySet, hStart, hExpiry, hlt]
  · intro heq
    have hnlt : ¬ expiryDate < startDate + 5 * Minute := by omega
    unfold buildScheduleRequest
    simp only [bne_iff_ne, ne_eq, hStartSet, not_false_eq_true, if_true, hStart, hExpirySet,
      hExpiry, hnlt, decide_False, Bool.and_false, Bool.false_eq_true, if_false]
    split <;> simp

theorem expiration_before_start_rejected_witness :
    buildScheduleRequest parseRFC3339Example exampleNow expirationDateChanged
        (scheduleModelOf "2030-01-01T00:00:00Z" "2030-01-01T00:04:59Z" "" false) =
        .error .expirationBeforeStart ∧
      buildScheduleRequest parseRFC3339Example exampleNow expirationDateChanged
        (scheduleModelOf "2030-01-01T00:00:00Z" "2030-01-01T00:05:00Z" "" false) ≠
        .error .expirationBeforeStart :=
  ⟨(expiration_before_start_rejected parseRFC3339Example exampleNow expirationDateChanged
      (scheduleModelOf "2030-01-01T00:00:00Z" "2030-01-01T00:04:59Z" "" false)
      1893456000000000000 1893456299000000000 (by decide) (by decide) rfl rfl).1 (by decide),
    (expiration_before_start_rejected parseRFC3339Example exampleNow expirationDateChanged
      (scheduleModelOf "2030-01-01T00:00:00Z" "2030-01-01T00:05:00Z" "" false)
      1893456000000000000 1893456300000000000 (by decide) (by decide) rfl rfl).2.2
      (by decide)⟩

/-- The check "at least 5 minutes in the future" of `buildScheduleRequest`
fires only if `HasChange` answers true for the key `expiry_date`. -/
theorem expirationNotInFuture_needs_expiry_date_change
    (parse : String → Except String Int) (now : Int) (HasChange : String → Bool)
    (model : PrivilegedAccessGroupScheduleModel)
    (h : buildScheduleRequest parse now HasChange model = .error .expirationNotInFuture) :
    HasChange "expiry_date" = true := by
  unfold buildScheduleRequest at h
  cases hc : HasChange "expiry_date" with
  | true => rfl
  | false =>
    simp only [hc, Bool.false_and, Bool.false_eq_true, if_false] at h
    repeat (split at h <;> try simp at h)

/-- C17 (the code at the failing input). The `expiration_date` attribute has
changed and the date (2020-01-01) is earlier than the current time plus 5
minutes, yet `buildScheduleRequest` returns a schedule and no error. -/
theorem changed_past_expiration_accepted :
    expirationDateChanged "expiration_date" = true ∧
      parseRFC3339Example "2020-01-01T00:00:00Z" = .ok 1577836800000000000 ∧
      (1577836800000000000 : Int) < exampleNow + 5 * Minute ∧
      buildScheduleRequest parseRFC3339Example exampleNow expirationDateChanged
          (scheduleModelOf "" "2020-01-01T00:00:00Z" "" false) =
        .ok { Expiration := { Duration := none, EndDateTime := some "2020-01-01T00:00:00Z"
                              ExpirationType := some .AfterDateTime }
              StartDateTime := none } :=
  ⟨rfl, rfl, by decide, rfl⟩

/-- C18. For a model whose `start_date` is empty or a valid RFC 3339 time:
when `expiration_date` and `duration` are empty and `permanent_assignment` is
false, `buildScheduleRequest` returns no schedule but the error "either
`expiration_date` or `duration` must be set, or `permanent_assignment` must be
true"; and whenever it returns a schedule, `expiration_date` or `duration` is
non-empty or `permanent_assignment` is true. -/
theorem nothing_set_rejected (parse : String → Except String Int) (now : Int)
    (HasChange : String → Bool) (model : PrivilegedAccessGroupScheduleModel)
    (hStart : model.StartDate = "" ∨ ∃ t, parse model.StartDate = .ok t) :
    (model.ExpirationDate = "" → model.Duration = "" → model.PermanentAssignment = false →
        buildScheduleRequest parse now HasChange model = .error .nothingSet) ∧
      ScheduleFailure.nothingSet.Error =
        "either `expiration_date` or `duration` must be set, or `permanent_assignment` must be true" ∧
      (∀ schedule, buildScheduleRequest parse now HasChange model = .ok schedule →
        model.ExpirationDate ≠ "" ∨ model.Duration ≠ "" ∨ model.PermanentAssignment = true) := by
  refine ⟨?_, rfl, ?_⟩
  · intro hE hD hP
    rcases hStart with h | ⟨t, h⟩
    · simp [buildScheduleRequest, h, hE, hD, hP]
    · by_cases hs : model.StartDate = ""
      · simp [buildScheduleRequest, hs, hE, hD, hP]
      · simp [buildScheduleRequest, hs, h, hE, hD, hP]
  · intro schedule hok
    by_contra hnone
    simp only [ne_eq, not_or, not_not, Bool.not_eq_true] at hnone
    obtain ⟨hE, hD, hP⟩ := hnone
    unfold buildScheduleRequest at hok
    simp only [hE, hD, hP, bne_self_eq_false, Bool.false_eq_true, if_false] at hok
    split at hok <;> simp at hok

theorem nothing_set_rejected_witness :
    buildScheduleRequest parseRFC3339Example exampleNow expirationDateChanged
        (scheduleModelOf "2030-01-01T00:00:00Z" "" "" false) = .error .nothingSet ∧
      ((scheduleModelOf "" "" "P3D" false).ExpirationDate ≠ "" ∨
        (scheduleModelOf "" "" "P3D" false).Duration ≠ "" ∨
        (scheduleModelOf "" "" "P3D" false).PermanentAssignment = true) :=
  ⟨(nothing_set_rejected parseRFC3339Example exampleNow expirationDateChanged
      (scheduleModelOf "2030-01-01T00:00:00Z" "" "" false)
      (Or.inr ⟨1893456000000000000, rfl⟩)).1 rfl rfl rfl,
    (nothing_set_rejected parseRFC3339Example exampleNow expirationDateChanged
      (scheduleModelOf "" "" "P3D" false) (Or.inl rfl)).2.2
      { Expiration := { Duration := some "P3D", EndDateTime := none
                        ExpirationType := some .AfterDuration }
        StartDateTime := none } rfl⟩

/-! ## Theorems: the provider executable and `FloatInSlice` -/

/-- C19 (the code at the failing input). Whatever value the `-debug` flag has,
`true` included, `main` serves the provider with `ServeOpts.Debug = false`. -/
theorem main_ignores_debug_flag :
    (main true).Debug = false ∧ ∀ debug, (main debug).Debug = false :=
  ⟨rfl, fun _ => rfl⟩

theorem floatInList_iff (v : Float64) :
    ∀ valid : List Float64, floatInList v valid = true ↔ ∃ x ∈ valid, v.eq x = true := by
  intro valid
  induction valid with
  | nil => simp [floatInList]
  | cons x rest ih =>
    unfold floatInList
    by_cases h : v.eq x = true
    · simp [h]
    · simp [h, ih]

/-- C20. The validator `FloatInSlice(valid)` returns no errors exactly when the
value is a `float64` equal (Go `==`) to some element of `valid`; a value of
another type is rejected, in particular the integer 1 against a slice that
contains the float 1. -/
theorem FloatInSlice_no_errors_iff (valid : List Float64) (i : GoValue) (k : String) :
    ((FloatInSlice valid i k).2 = [] ↔
        ∃ v, i = .float64 v ∧ ∃ x ∈ valid, v.eq x = true) ∧
      (∀ n : Int, (FloatInSlice valid (.int n) k).2 ≠ []) ∧
      float1 ∈ [float0, float1, float2] ∧
      (FloatInSlice [float0, float1, float2] (.int 1) k).2 ≠ [] := by
  refine ⟨?_, fun n => by simp [FloatInSlice], by decide, by simp [FloatInSlice]⟩
  cases i with
  | float64 v =>
    unfold FloatInSlice
    by_cases h : floatInList v valid = true
    · simp only [h, if_true, true_iff]
      exact ⟨v, rfl, (floatInList_iff v valid).mp h⟩
    · simp only [h, Bool.false_eq_true, if_false]
      constructor
      · intro hc
        simp at hc
      · rintro ⟨w, hw, hx⟩
        cases hw
        exact absurd ((floatInList_iff v valid).mpr hx) h
  | int n => simp [FloatInSlice]
  | string str => simp [FloatInSlice]
  | bool b => simp [FloatInSlice]

/-- Every case of the table of `TestValidateFloatInSlice` passes on the model
of `FloatInSlice`. -/
theorem TestValidateFloatInSlice_passes :
    floatInSliceCases.all floatInSliceCasePasses = true := by
  decide

/-! ## Theorems: the state migration and the retry predicate -/

/-- C21. For every raw state whose `id` is a string `s`, the upgrader returns
a nil error and a state in which `id` is the string `ID()` of the v1 resource
ID built from `s`, and every other key has the value (or the absence) it had
before. -/
theorem StateUpgradeV0_replaces_only_id
    (ID : RoleManagementDirectoryRoleAssignmentId → String) (rawState : RawState) (s : String)
    (hId : rawState "id" = some (.string s)) :
    ∃ upgraded, ResourceDirectoryRoleAssignmentInstanceStateUpgradeV0 ID rawState =
        .returned upgraded none ∧
      upgraded "id" = some (.string (ID (NewRoleManagementDirectoryRoleAssignmentID s))) ∧
      ∀ key, key ≠ "id" → upgraded key = rawState key := by
  refine ⟨rawState.set "id" (.string (ID (NewRoleManagementDirectoryRoleAssignmentID s))), ?_,
    ?_, ?_⟩
  · simp [ResourceDirectoryRoleAssignmentInstanceStateUpgradeV0, hId]
  · simp [RawState.set]
  · intro key hkey
    simp [RawState.set, hkey]

theorem StateUpgradeV0_replaces_only_id_witness :
    ∃ upgraded, ResourceDirectoryRoleAssignmentInstanceStateUpgradeV0 roleAssignmentIDExample
        rawStateV0Example = .returned upgraded none ∧
      upgraded "id" = some (.string (roleAssignmentIDExample
        (NewRoleManagementDirectoryRoleAssignmentID "lAPpYvVpN0KRkAEhdxReEMEx"))) ∧
      ∀ key, key ≠ "id" → upgraded key = rawStateV0Example key :=
  StateUpgradeV0_replaces_only_id roleAssignmentIDExample rawStateV0Example
    "lAPpYvVpN0KRkAEhdxReEMEx" rfl

/-- The example formatter gives the upgraded example state the ID
`/roleManagement/directory/roleAssignments/{s}`. -/
theorem roleAssignmentIDExample_form :
    roleAssignmentIDExample (NewRoleManagementDirectoryRoleAssignmentID
        "lAPpYvVpN0KRkAEhdxReEMEx") =
      "/roleManagement/directory/roleAssignments/lAPpYvVpN0KRkAEhdxReEMEx" := by
  decide

/-- C22. The retry predicate `Create` passes to `AddOwnerRef` never returns an
error, and it asks for a retry exactly when the response is present and its
status is 404 Not Found; in particular it asks for none when there is no
response or the status differs from 404. -/
theorem Create_retries_exactly_on_notFound (resp : Option HttpResponse) (o : Option OData) :
    (ApplicationOwnerResource.CreateOptions.RetryFunc resp o).2 = none ∧
      ((ApplicationOwnerResource.CreateOptions.RetryFunc resp o).1 = true ↔
        ∃ r, resp = some r ∧ r.StatusCode = 404) ∧
      (resp = none → (ApplicationOwnerResource.CreateOptions.RetryFunc resp o).1 = false) ∧
      (∀ r, resp = some r → r.StatusCode ≠ 404 →
        (ApplicationOwnerResource.CreateOptions.RetryFunc resp o).1 = false) := by
  unfold ApplicationOwnerResource.CreateOptions
  cases resp with
  | none => simp [WasNotFound]
  | some r =>
    by_cases h : r.StatusCode = 404
    · simp [WasNotFound, h]
    · simp [WasNotFound, h]

theorem Create_retries_exactly_on_notFound_witness :
    (ApplicationOwnerResource.CreateOptions.RetryFunc none none).1 = false ∧
      (ApplicationOwnerResource.CreateOptions.RetryFunc (some { StatusCode := 500 }) none).1 =
        false ∧
      (ApplicationOwnerResource.CreateOptions.RetryFunc (some { StatusCode := 404 }) none).1 =
        true :=
  ⟨(Create_retries_exactly_on_notFound none none).2.2.1 rfl,
    (Create_retries_exactly_on_notFound (some { StatusCode := 500 }) none).2.2.2
      { StatusCode := 500 } rfl (by decide),
    (Create_retries_exactly_on_notFound (some { StatusCode := 404 }) none).2.1.mpr
      ⟨{ StatusCode := 404 }, rfl, rfl⟩⟩

end AzureAD
